import Mathlib

/-!
Pastel Flower Canvas: a verification development for flowers.js.

The definitions below are a shallow embedding of `src/flowers.js`.

Modelling conventions
* JavaScript numbers that hold coordinates, clock readings and durations are
  rationals (`ℚ`); `flowerCounter` is a natural number.  The lifecycle,
  scheduling, palette and particle statements read these numbers through
  comparisons and are stated over exact arithmetic.  The stem interpolation
  depends on rounding, so it is also defined in double precision
  (`roundDouble`, `drawStemDouble`) and its statements are about that
  definition.
* `Math.random()` is an input: every function that samples takes the sampled
  values as arguments.  `randInt(0, PETAL_COLORS.length)` yields an integer in
  `0 .. 9`, hence a `Fin 10`.
* Canvas drawing has no feedback into the program state; where a statement is about
  whether something is drawn, the drawing function returns that fact.
-/

namespace Flowers

/-! ## Palette selector (flowers.js 28-88) -/

/-- An entry of the colour tables: a centre colour and an outer colour. -/
structure PetalColor where
  center : String
  outer : String
deriving DecidableEq

/-- The object returned by selectPalette: a colour pair spread together with the flag. -/
structure Palette where
  center : String
  outer : String
  isRedRose : Bool
deriving DecidableEq

/-- The ten pastel palettes of the standard catalog. -/
def PETAL_COLORS : List PetalColor :=
  [ ⟨"#ffeb9c", "#ff7eb3"⟩,
    ⟨"#ffd4a3", "#ffad66"⟩,
    ⟨"#ffe5f1", "#cc8bff"⟩,
    ⟨"#fff5b8", "#ff5f8d"⟩,
    ⟨"#ffe0c4", "#ffb86c"⟩,
    ⟨"#e0f4ff", "#9ecbff"⟩,
    ⟨"#fffef5", "#fff5e6"⟩,
    ⟨"#e8ffe8", "#b5ffd9"⟩,
    ⟨"#ffe5e5", "#ff9f9f"⟩,
    ⟨"#d4b3ff", "#5a2bff"⟩ ]

/-- The special red rose palette (every 7th flower). -/
def RED_ROSE_PALETTE : PetalColor := ⟨"#ff4d4d", "#d40000"⟩

/-- The catalog entry `PETAL_COLORS[colorIndex]`. -/
def petalColorAt (colorIndex : Fin 10) : PetalColor :=
  PETAL_COLORS.get ⟨colorIndex.val, colorIndex.isLt⟩

/-- The value `{ ...RED_ROSE_PALETTE, isRedRose: true }`. -/
def redRosePalette : Palette :=
  ⟨RED_ROSE_PALETTE.center, RED_ROSE_PALETTE.outer, true⟩

/-- The value `{ ...PETAL_COLORS[colorIndex], isRedRose: false }`. -/
def standardPalette (colorIndex : Fin 10) : Palette :=
  ⟨(petalColorAt colorIndex).center, (petalColorAt colorIndex).outer, false⟩

/-- The two module variables the selector owns. -/
structure Selector where
  flowerCounter : Nat
  lastColorIndices : List (Fin 10)
deriving DecidableEq

/-- The selector at start-up and right after the clear handler. -/
def Selector.fresh : Selector := ⟨0, []⟩

/-- The loop guard of the do-while in selectPalette, read after `attempts++`. -/
def resampleGuard (lastColorIndices : List (Fin 10)) (colorIndex : Fin 10) (attempts : Nat) : Bool :=
  decide (attempts < 10) && decide (2 ≤ lastColorIndices.length) &&
    (lastColorIndices[0]? == some colorIndex) && (lastColorIndices[1]? == some colorIndex)

/-- The do-while of selectPalette.  `rnd j` is the value of the `j`-th call of
`randInt(0, PETAL_COLORS.length)` made by this invocation (counting from 0) and
`attempts` the loop counter on entry to the body.  The result is the final
`colorIndex` and the final `attempts`.  The first argument bounds the number of
iterations for the recursion; ten is always enough (see `drawColor_fuel`). -/
def drawColorLoop (lastColorIndices : List (Fin 10)) (rnd : Nat → Fin 10) :
    Nat → Nat → Fin 10 × Nat
  | 0, attempts => (rnd attempts, attempts + 1)
  | fuel + 1, attempts =>
    let colorIndex := rnd attempts
    let attempts := attempts + 1
    if resampleGuard lastColorIndices colorIndex attempts then
      drawColorLoop lastColorIndices rnd fuel attempts
    else
      (colorIndex, attempts)

/-- The colour sampling of one selectPalette call: `attempts = 0`, then the do-while. -/
def drawColor (lastColorIndices : List (Fin 10)) (rnd : Nat → Fin 10) : Fin 10 × Nat :=
  drawColorLoop lastColorIndices rnd 10 0

/-- The history update `unshift(colorIndex); if (length > 3) pop()`. -/
def trackColor (lastColorIndices : List (Fin 10)) (colorIndex : Fin 10) : List (Fin 10) :=
  let unshifted := colorIndex :: lastColorIndices
  if unshifted.length > 3 then unshifted.dropLast else unshifted

/-- What one call of selectPalette returns, with two observations about the call:
the catalog index it settled on (none for the red rose) and the number of
samples it drew. -/
structure Selection where
  palette : Palette
  colorIndex : Option (Fin 10)
  attempts : Nat
deriving DecidableEq

/-- The function selectPalette, as a transition of the selector state. -/
def selectPalette (s : Selector) (rnd : Nat → Fin 10) : Selection × Selector :=
  let flowerCounter := s.flowerCounter + 1
  if flowerCounter % 7 = 0 then
    (⟨redRosePalette, none, 0⟩, ⟨flowerCounter, []⟩)
  else
    let drawn := drawColor s.lastColorIndices rnd
    (⟨standardPalette drawn.1, some drawn.1, drawn.2⟩,
      ⟨flowerCounter, trackColor s.lastColorIndices drawn.1⟩)

/-- Successive calls of selectPalette; the `k`-th call samples from the `k`-th stream. -/
def selectMany (s : Selector) : List (Nat → Fin 10) → List Selection × Selector
  | [] => ([], s)
  | rnd :: rest =>
    let r := selectPalette s rnd
    let rs := selectMany r.2 rest
    (r.1 :: rs.1, rs.2)

/-- The calls of a run, each selection paired with the sample stream it read. -/
def selectorCalls (draws : List (Nat → Fin 10)) : List (Selection × (Nat → Fin 10)) :=
  (selectMany Selector.fresh draws).1.zip draws

/-- The calls that returned a catalog entry, in call order (red-rose calls skipped). -/
def standardCalls (draws : List (Nat → Fin 10)) : List (Selection × (Nat → Fin 10)) :=
  (selectorCalls draws).filter fun c => c.1.colorIndex.isSome

/-- In a list of calls, three neighbours with the same catalog index force the
third to have drawn ten samples, each equal to that index. -/
def TripleExhausts (calls : List (Selection × (Nat → Fin 10))) : Prop :=
  ∀ (j : Nat) (i : Fin 10) (c1 c2 c3 : Selection × (Nat → Fin 10)),
    calls[j]? = some c1 → calls[j + 1]? = some c2 → calls[j + 2]? = some c3 →
    c1.1.colorIndex = some i → c2.1.colorIndex = some i → c3.1.colorIndex = some i →
    c3.1.attempts = 10 ∧ ∀ n, n < 10 → c3.2 n = i

/-- Eight calls: the fifth, sixth and eighth sample index 3 at once. -/
def roseSplitDraws : List (Nat → Fin 10) :=
  [fun _ => 0, fun _ => 1, fun _ => 2, fun _ => 4, fun _ => 3, fun _ => 3, fun _ => 5,
    fun _ => 3]

/-! ## Utility and easing functions (flowers.js 50-58) -/

/-- The function rand: `Math.random() * (max - min) + min`, where `u` is the value
of `Math.random()`, a number with `0 ≤ u < 1`. -/
def rand (min max u : ℚ) : ℚ := u * (max - min) + min

/-- The easing `t * (2 - t)`. -/
def easeOutQuad (t : ℚ) : ℚ := t * (2 - t)

/-- The easing `1 - Math.pow(1 - t, 3)`. -/
def easeOutCubic (t : ℚ) : ℚ := 1 - (1 - t) ^ 3

/-- JavaScript truthiness of a property holding a number or undefined / null:
`!v` is true for undefined, for null and for zero. -/
def falsy : Option ℚ → Bool
  | none => true
  | some v => v == 0

/-! ## Ambient particles (flowers.js 132-172) -/

/-- A firefly particle.  The colour is the index into FIREFLY_COLORS. -/
structure Firefly where
  x : ℚ
  y : ℚ
  radius : ℚ
  color : Fin 4
  opacity : ℚ
  speedY : ℚ
  speedX : ℚ
  phase : ℚ
deriving DecidableEq

/-- The random samples consumed by one createFirefly call: the values of
`Math.random()` in call order, the colour index returned by randInt, and the
value of `rand(0, Math.PI * 2)` for the phase. -/
structure FireflySeed where
  uX : ℚ
  uY : ℚ
  uRadius : ℚ
  colorIndex : Fin 4
  uOpacity : ℚ
  uSpeedY : ℚ
  uSpeedX : ℚ
  phase : ℚ

/-- The number of ambient particles. -/
def FIREFLY_COUNT : Nat := 25

/-- The function createFirefly. -/
def createFirefly (innerWidth innerHeight : ℚ) (seed : FireflySeed) : Firefly :=
  { x := rand 0 innerWidth seed.uX
    y := rand 0 innerHeight seed.uY
    radius := rand 2 4 seed.uRadius
    color := seed.colorIndex
    opacity := rand (2 / 10) (4 / 10) seed.uOpacity
    speedY := rand (-(3 / 10)) (-(8 / 10)) seed.uSpeedY
    speedX := rand (-(2 / 10)) (2 / 10) seed.uSpeedX
    phase := seed.phase }

/-- The function initFireflies: FIREFLY_COUNT particles pushed in order. -/
def initFireflies (innerWidth innerHeight : ℚ) (seeds : Nat → FireflySeed) : List Firefly :=
  (List.range FIREFLY_COUNT).map fun i => createFirefly innerWidth innerHeight (seeds i)

/-- The body of the forEach in updateFireflies for one particle.  `u` is the value
of `Math.random()` used if the particle respawns. -/
def updateFirefly (innerWidth innerHeight : ℚ) (u : ℚ) (f : Firefly) : Firefly :=
  let y := f.y + f.speedY
  let x := f.x + f.speedX
  let respawn := decide (y < -10)
  let y := if respawn then innerHeight + 10 else y
  let x := if respawn then rand 0 innerWidth u else x
  let x := if x < -10 then innerWidth + 10 else x
  let x := if x > innerWidth + 10 then -10 else x
  { f with x := x, y := y, phase := f.phase + 2 / 100 }

/-- The function updateFireflies; `us i` is the sample available to particle `i`. -/
def updateFireflies (innerWidth innerHeight : ℚ) (us : Nat → ℚ) (fireflies : List Firefly) :
    List Firefly :=
  fireflies.mapIdx fun i f => updateFirefly innerWidth innerHeight (us i) f

/-! ## Flowers (flowers.js 191-349) -/

/-- A flower record.  The petal descriptors, stem colour and stem thickness are
read only by canvas calls and are left out.  The property currentX does not
exist on a new flower.  The last field is a history variable: it counts the
executions of the assignment `flower.bloomStartTime = now`. -/
structure Flower where
  startX : ℚ
  startY : ℚ
  targetX : ℚ
  targetY : ℚ
  currentX : Option ℚ
  currentY : Option ℚ
  startTime : ℚ
  stemDuration : ℚ
  bloomDuration : ℚ
  bloomStartTime : Option ℚ
  stemCurve : ℚ
  swaySpeed : ℚ
  swayPhase : ℚ
  swayAmount : ℚ
  palette : Palette
  petalCount : Nat
  stemComplete : Bool
  bloomComplete : Bool
  bloomStartAssignments : Nat
deriving DecidableEq

/-- The random samples consumed by one createFlower call: the stream read by
selectPalette, the result of `randInt(4, 7)`, unit samples for the rand calls
and the value of `rand(0, Math.PI * 2)` for the sway phase. -/
structure FlowerSeed where
  paletteDraws : Nat → Fin 10
  petalCount : Nat
  uStartX : ℚ
  uStemDuration : ℚ
  uBloomDuration : ℚ
  uStemCurve : ℚ
  uSwaySpeed : ℚ
  swayPhase : ℚ
  uSwayAmount : ℚ

/-- The object literal built by createFlower. -/
def newFlower (innerHeight targetX targetY now : ℚ) (palette : Palette) (seed : FlowerSeed) :
    Flower :=
  { startX := targetX + rand (-20) 20 seed.uStartX
    startY := innerHeight
    targetX := targetX
    targetY := targetY
    currentX := none
    currentY := some innerHeight
    startTime := now
    stemDuration := rand 800 1400 seed.uStemDuration
    bloomDuration := rand 600 900 seed.uBloomDuration
    bloomStartTime := none
    stemCurve := rand (-30) 30 seed.uStemCurve
    swaySpeed := rand (8 / 10000) (15 / 10000) seed.uSwaySpeed
    swayPhase := seed.swayPhase
    swayAmount := rand 1 3 seed.uSwayAmount
    palette := palette
    petalCount := seed.petalCount
    stemComplete := false
    bloomComplete := false
    bloomStartAssignments := 0 }

/-- The function drawStem, as the update of the flower it performs.  `sin` stands
for `Math.sin`.  The canvas calls are omitted. -/
def drawStem (sin : ℚ → ℚ) (flower : Flower) (progress currentTime : ℚ) : Flower :=
  let t := easeOutCubic progress
  let currentX := flower.startX + (flower.targetX - flower.startX) * t
  let currentY := flower.startY - (flower.startY - flower.targetY) * t
  let currentX :=
    if flower.bloomComplete && !(currentTime == 0) then
      let swayOffset := sin (currentTime * flower.swaySpeed + flower.swayPhase) * flower.swayAmount
      currentX + swayOffset * progress
    else currentX
  { flower with currentX := some currentX, currentY := some currentY }

/-- What drawFlowerHead paints: where the head is translated to, its opacity and
the eased scale `t`. -/
structure HeadDrawing where
  x : ℚ
  y : ℚ
  opacity : ℚ
  t : ℚ
deriving DecidableEq

/-- The function drawFlowerHead: none when it returns at the guard
`if (!currentX || !currentY) return;`, otherwise what it paints. -/
def drawFlowerHead (flower : Flower) (bloomProgress : ℚ) : Option HeadDrawing :=
  if falsy flower.currentX || falsy flower.currentY then none
  else
    let t := easeOutQuad bloomProgress
    some ⟨flower.currentX.getD 0, flower.currentY.getD 0, min 1 (t * (3 / 2)), t⟩

/-! ## Animation driver (flowers.js 123-130, 351-408) -/

/-- What one iteration of the forEach in animate does to a flower: the updated
flower, whether it set hasActive, and the head it painted if any. -/
structure FrameOutcome where
  flower : Flower
  hasActive : Bool
  head : Option HeadDrawing
deriving DecidableEq

/-- The body of the forEach in animate.  A null bloomStartTime subtracts as 0. -/
def animateFlower (sin : ℚ → ℚ) (now : ℚ) (flower : Flower) : FrameOutcome :=
  if !flower.stemComplete then
    let elapsed := now - flower.startTime
    let stemProgress := min 1 (elapsed / flower.stemDuration)
    let flower := drawStem sin flower stemProgress now
    if stemProgress ≥ 1 then
      ⟨{ flower with
          stemComplete := true
          bloomStartTime := some now
          bloomStartAssignments := flower.bloomStartAssignments + 1 }, false, none⟩
    else
      ⟨flower, true, none⟩
  else if !flower.bloomComplete then
    let flower := drawStem sin flower 1 now
    let bloomElapsed := now - flower.bloomStartTime.getD 0
    let bloomProgress := min 1 (bloomElapsed / flower.bloomDuration)
    let head := drawFlowerHead flower bloomProgress
    if bloomProgress ≥ 1 then
      ⟨{ flower with bloomComplete := true }, false, head⟩
    else
      ⟨flower, true, head⟩
  else
    let flower := drawStem sin flower 1 now
    ⟨flower, false, drawFlowerHead flower 1⟩

/-- The body of the forEach in redrawAll: the flower after drawStem at progress 1. -/
def redrawFlower (sin : ℚ → ℚ) (now : ℚ) (flower : Flower) : Flower :=
  drawStem sin flower 1 now

/-- The module state.  `pendingFrames` counts the callbacks handed to
requestAnimationFrame that have not run yet. -/
structure State where
  innerWidth : ℚ
  innerHeight : ℚ
  flowers : List Flower
  animating : Bool
  selector : Selector
  fireflies : List Firefly
  pendingFrames : Nat

/-- The function redrawAll; `nows i` is the clock reading taken for flower `i`. -/
def redrawAll (sin : ℚ → ℚ) (nows : Nat → ℚ) (s : State) : State :=
  { s with flowers := s.flowers.mapIdx fun i f => redrawFlower sin (nows i) f }

/-- The function resizeCanvas after the window took the size `w` by `h`. -/
def resizeCanvas (sin : ℚ → ℚ) (w h : ℚ) (nows : Nat → ℚ) (s : State) : State :=
  redrawAll sin nows { s with innerWidth := w, innerHeight := h }

/-- The function startAnimation. -/
def startAnimation (s : State) : State :=
  if !s.animating then
    { s with animating := true, pendingFrames := s.pendingFrames + 1 }
  else s

/-- The function createFlower. -/
def createFlower (targetX targetY now : ℚ) (seed : FlowerSeed) (s : State) : State :=
  let picked := selectPalette s.selector seed.paletteDraws
  let flower := newFlower s.innerHeight targetX targetY now picked.1.palette seed
  startAnimation { s with flowers := s.flowers ++ [flower], selector := picked.2 }

/-- The function animate, run as a frame callback: the callback being run is no
longer pending, and a call of requestAnimationFrame adds one pending callback. -/
def animate (sin : ℚ → ℚ) (now : ℚ) (us : Nat → ℚ) (s : State) : State :=
  let fireflies := updateFireflies s.innerWidth s.innerHeight us s.fireflies
  let outcomes := s.flowers.map (animateFlower sin now)
  let hasActive := outcomes.any fun o => o.hasActive
  let flowers := outcomes.map fun o => o.flower
  let pending := s.pendingFrames - 1
  if hasActive || decide (flowers.length > 0) then
    { s with fireflies := fireflies, flowers := flowers, pendingFrames := pending + 1 }
  else
    { s with fireflies := fireflies, flowers := flowers, pendingFrames := pending,
             animating := false }

/-- The click handler of the clean button. -/
def clearHandler (s : State) : State :=
  { s with flowers := [], selector := ⟨0, []⟩ }

/-- The state once the module body has run: particles created, the canvas sized,
`animating = true` and one frame requested. -/
def initState (sin : ℚ → ℚ) (w h : ℚ) (seeds : Nat → FireflySeed) : State :=
  let s : State :=
    { innerWidth := w, innerHeight := h, flowers := [], animating := false,
      selector := Selector.fresh, fireflies := initFireflies w h seeds, pendingFrames := 0 }
  let s := resizeCanvas sin w h (fun _ => 0) s
  { s with animating := true, pendingFrames := s.pendingFrames + 1 }

/-- The events the host delivers to the module. -/
inductive Event where
  | frame (now : ℚ) (us : Nat → ℚ)
  | pointerdown (x y now : ℚ) (seed : FlowerSeed)
  | clear
  | resize (w h : ℚ) (nows : Nat → ℚ)

/-- One event.  A frame callback can run only if one is pending. -/
def step (sin : ℚ → ℚ) (s : State) : Event → Option State
  | .frame now us => if s.pendingFrames = 0 then none else some (animate sin now us s)
  | .pointerdown x y now seed => some (createFlower x y now seed s)
  | .clear => some (clearHandler s)
  | .resize w h nows => some (resizeCanvas sin w h nows s)

/-- A sequence of events, in order. -/
def run (sin : ℚ → ℚ) (s : State) : List Event → Option State
  | [] => some s
  | e :: rest => (step sin s e).bind fun s' => run sin s' rest

/-- The events of a single flower's life between its creation and a clear. -/
inductive FlowerEvent where
  | frame (now : ℚ)
  | redraw (now : ℚ)
deriving DecidableEq

/-- What an event does to one flower of the collection. -/
def flowerStep (sin : ℚ → ℚ) (flower : Flower) : FlowerEvent → Flower
  | .frame now => (animateFlower sin now flower).flower
  | .redraw now => redrawFlower sin now flower

/-- The flower after a sequence of frames and redraws. -/
def flowerRun (sin : ℚ → ℚ) (flower : Flower) (evs : List FlowerEvent) : Flower :=
  evs.foldl (flowerStep sin) flower

/-! ## Double precision (flowers.js 57, 242-276)

JavaScript numbers are IEEE 754 binary64 values.  The definitions of this
section evaluate the interpolation of drawStem with every arithmetic operation
rounded to the nearest binary64 value, a tie going to the even significand.
Finite doubles are the rationals fixed by `roundDouble`; overflow to Infinity
and NaN are outside this model (pixel coordinates and millisecond clocks are
far below `2 ^ 1024`). -/

/-- Rounding to the nearest integer, a tie going to the even neighbour. -/
def roundHalfEven (q : ℚ) : ℤ :=
  if q - ⌊q⌋ < 1 / 2 then ⌊q⌋
  else if 1 / 2 < q - ⌊q⌋ then ⌊q⌋ + 1
  else if ⌊q⌋ % 2 = 0 then ⌊q⌋ else ⌊q⌋ + 1

/-- The exponent of the unit in the last place at `x`: significands have 53
bits, and below `2 ^ (-1022)` the spacing stays `2 ^ (-1074)`. -/
def ulpExponent (x : ℚ) : ℤ := max (Int.log 2 |x|) (-1022) - 52

/-- The binary64 value nearest to `x`. -/
def roundDouble (x : ℚ) : ℚ :=
  roundHalfEven (x / 2 ^ ulpExponent x) * 2 ^ ulpExponent x

/-- The easing `1 - Math.pow(1 - t, 3)` in double precision.  `pow3 x` stands for
the double returned by `Math.pow(x, 3)`, whose accuracy is left to the engine. -/
def easeOutCubicDouble (pow3 : ℚ → ℚ) (t : ℚ) : ℚ :=
  roundDouble (1 - pow3 (roundDouble (1 - t)))

/-- The lines `currentX = startX + (targetX - startX) * t` and
`currentY = startY - (startY - targetY) * t` of drawStem in double precision,
with `t = easeOutCubic(progress)`. -/
def stemPointDouble (pow3 : ℚ → ℚ) (flower : Flower) (progress : ℚ) : ℚ × ℚ :=
  let t := easeOutCubicDouble pow3 progress
  (roundDouble (flower.startX + roundDouble (roundDouble (flower.targetX - flower.startX) * t)),
    roundDouble (flower.startY - roundDouble (roundDouble (flower.startY - flower.targetY) * t)))

/-- The function drawStem in double precision, as the update of the flower it
performs.  `sin` stands for `Math.sin`. -/
def drawStemDouble (pow3 sin : ℚ → ℚ) (flower : Flower) (progress currentTime : ℚ) : Flower :=
  let t := easeOutCubicDouble pow3 progress
  let currentX :=
    roundDouble (flower.startX + roundDouble (roundDouble (flower.targetX - flower.startX) * t))
  let currentY :=
    roundDouble (flower.startY - roundDouble (roundDouble (flower.startY - flower.targetY) * t))
  let currentX :=
    if flower.bloomComplete && !(currentTime == 0) then
      let swayOffset :=
        roundDouble (sin (roundDouble (roundDouble (currentTime * flower.swaySpeed) +
          flower.swayPhase)) * flower.swayAmount)
      roundDouble (currentX + roundDouble (swayOffset * progress))
    else currentX
  { flower with currentX := some currentX, currentY := some currentY }

/-- A correctly rounded cube, one admissible behaviour of `Math.pow(x, 3)`. -/
def cubeDouble (x : ℚ) : ℚ := roundDouble (x ^ 3)

/-! ## Vocabulary of the lifecycle statements -/

/-- The position of a flower in its lifecycle: the number of completion flags set
(0 Growing, 1 Blooming, 2 Settled). -/
def phase (flower : Flower) : Nat :=
  flower.stemComplete.toNat + flower.bloomComplete.toNat

/-- Whether an event is the clear trigger. -/
def Event.isClear : Event → Bool
  | .clear => true
  | _ => false

/-- Whether an event is a frame callback. -/
def Event.isFrame : Event → Bool
  | .frame _ _ => true
  | _ => false

/-- The number of frame callbacks among the events. -/
def frameCount (evs : List Event) : Nat :=
  (evs.filter Event.isFrame).length

/-- The scheduling discipline of the frame loop: at most one callback pending,
the flag `animating` set exactly when one is, and one pending whenever the
collection holds a flower. -/
def LoopInv (s : State) : Prop :=
  s.pendingFrames ≤ 1 ∧ (s.animating = true ↔ s.pendingFrames = 1) ∧
    (s.flowers ≠ [] → s.pendingFrames = 1)

/-- Every flower of a state has bloomComplete only together with stemComplete. -/
def FlagsOrdered (s : State) : Prop :=
  ∀ (i : Nat) (f : Flower), s.flowers[i]? = some f →
    f.bloomComplete = true → f.stemComplete = true

/-- The palette cadence of a state: the selector has been called once per flower
of the collection, the flower at position `i` (counting from 0) carries the
red-rose palette when `i + 1` is a multiple of 7 and a catalog palette otherwise. -/
def PaletteCadence (s : State) : Prop :=
  s.selector.flowerCounter = s.flowers.length ∧
    ∀ (i : Nat) (f : Flower), s.flowers[i]? = some f →
      ((i + 1) % 7 = 0 → f.palette = redRosePalette) ∧
      ((i + 1) % 7 ≠ 0 → ∃ c : Fin 10, f.palette = standardPalette c)

/-! ## Sample inputs -/

/-- A sample stream and unit samples for one createFlower call: every unit
sample is 1/2 except the stem duration sample, which is 0 (a duration of 800). -/
def sampleSeed : FlowerSeed :=
  { paletteDraws := fun _ => 3, petalCount := 5, uStartX := 1 / 2, uStemDuration := 0,
    uBloomDuration := 0, uStemCurve := 1 / 2, uSwaySpeed := 1 / 2, swayPhase := 0,
    uSwayAmount := 1 / 2 }

/-- A flower created at time 0 by a press at (100, 100) in a viewport 800 high. -/
def sampleFlower : Flower :=
  newFlower 800 100 100 0 (standardPalette 3) sampleSeed

/-- A firefly about to leave through the top edge. -/
def sampleFirefly : Firefly :=
  { x := 50, y := -(99 / 10), radius := 3, color := 0, opacity := 3 / 10,
    speedY := -(1 / 2), speedX := 1 / 10, phase := 0 }

/-- A stand-in for `Math.sin` that is 0 everywhere. -/
def flatSin : ℚ → ℚ := fun _ => 0

/-- The life of the sample flower: a frame at 400 ms, a resize redraw at 500 ms
and frames at 800 ms and 900 ms. -/
def lifeEvents : List FlowerEvent := [.frame 400, .redraw 500, .frame 800, .frame 900]

/-- A flower created at time 0 by a press on the top pixel row, at (50, 0). -/
def topEdgeFlower : Flower :=
  newFlower 800 50 0 0 (standardPalette 3) sampleSeed

/-- The samples of one createFirefly call, all of them 1/2. -/
def sampleFireflySeed : FireflySeed :=
  { uX := 1 / 2, uY := 1 / 2, uRadius := 1 / 2, colorIndex := 0, uOpacity := 1 / 2,
    uSpeedY := 1 / 2, uSpeedX := 1 / 2, phase := 0 }

/-- Seven presses at (100, 100). -/
def sevenPresses : List Event :=
  List.replicate 7 (.pointerdown 100 100 0 sampleSeed)

/-- The start-up state of an 800 by 600 window, cleared, after seven presses. -/
def afterSevenPresses : State :=
  (List.range 7).foldl (fun s _ => createFlower 100 100 0 sampleSeed s)
    (clearHandler (initState flatSin 800 600 fun _ => sampleFireflySeed))

/-- A flower created by a press at (100, 100.3) in a viewport 800 high; the
y coordinate is the double written 100.3, that is 7057985041019699 / 2^46. -/
def fractionalFlower : Flower :=
  newFlower 800 100 (7057985041019699 / 70368744177664) 0 (standardPalette 3) sampleSeed

/-- The value 1/4 for every sample of `Math.random()`. -/
def quarterSamples : Nat → ℚ := fun _ => 1 / 4

/-! ## Selector lemmas -/

theorem selectMany_length (s : Selector) (draws : List (Nat → Fin 10)) :
    (selectMany s draws).1.length = draws.length := by
  induction draws generalizing s with
  | nil => rfl
  | cons rnd rest ih => simp [selectMany, ih]

theorem selectPalette_red (s : Selector) (rnd : Nat → Fin 10)
    (h : (s.flowerCounter + 1) % 7 = 0) :
    selectPalette s rnd = (⟨redRosePalette, none, 0⟩, ⟨s.flowerCounter + 1, []⟩) := by
  simp [selectPalette, h]

theorem selectPalette_std (s : Selector) (rnd : Nat → Fin 10)
    (h : (s.flowerCounter + 1) % 7 ≠ 0) :
    selectPalette s rnd =
      (⟨standardPalette (drawColor s.lastColorIndices rnd).1,
          some (drawColor s.lastColorIndices rnd).1, (drawColor s.lastColorIndices rnd).2⟩,
        ⟨s.flowerCounter + 1,
          trackColor s.lastColorIndices (drawColor s.lastColorIndices rnd).1⟩) := by
  simp [selectPalette, h]

theorem selectPalette_counter (s : Selector) (rnd : Nat → Fin 10) :
    (selectPalette s rnd).2.flowerCounter = s.flowerCounter + 1 := by
  by_cases h : (s.flowerCounter + 1) % 7 = 0
  · rw [selectPalette_red s rnd h]
  · rw [selectPalette_std s rnd h]

theorem selectMany_counter (s : Selector) (draws : List (Nat → Fin 10)) :
    (selectMany s draws).2.flowerCounter = s.flowerCounter + draws.length := by
  induction draws generalizing s with
  | nil => rfl
  | cons rnd rest ih =>
    simp only [selectMany, ih, selectPalette_counter, List.length_cons]
    omega

/-- The selection made by the call after `j` earlier ones, from any state. -/
theorem selectMany_getElem? (s : Selector) (draws : List (Nat → Fin 10)) (j : Nat)
    (hj : j < draws.length) :
    ∃ rnd, draws[j]? = some rnd ∧
      (selectMany s draws).1[j]? = some (selectPalette (selectMany s (draws.take j)).2 rnd).1 ∧
      (selectMany s (draws.take (j + 1))).2 =
        (selectPalette (selectMany s (draws.take j)).2 rnd).2 := by
  induction draws generalizing s j with
  | nil => simp at hj
  | cons rnd rest ih =>
    cases j with
    | zero => exact ⟨rnd, by simp [selectMany]⟩
    | succ j =>
      have hj' : j < rest.length := by simpa using hj
      obtain ⟨r, h1, h2, h3⟩ := ih (selectPalette s rnd).2 j hj'
      exact ⟨r, by simpa using h1, by simpa [selectMany] using h2, by simpa [selectMany] using h3⟩

theorem standardPalette_catalog (i : Fin 10) :
    PETAL_COLORS[i.val]? = some ⟨(standardPalette i).center, (standardPalette i).outer⟩ := by
  revert i
  decide

/-! ## The sampling loop -/

/-- Ten iterations are always enough: more fuel does not change the result. -/
theorem drawColor_fuel (hist : List (Fin 10)) (rnd : Nat → Fin 10) (fuel fuel' a : Nat)
    (h : 9 ≤ a + fuel) (h' : 9 ≤ a + fuel') :
    drawColorLoop hist rnd fuel a = drawColorLoop hist rnd fuel' a := by
  induction fuel generalizing fuel' a with
  | zero =>
    cases fuel' with
    | zero => rfl
    | succ n =>
      have : ¬ a + 1 < 10 := by omega
      simp [drawColorLoop, resampleGuard, this]
  | succ m ih =>
    cases fuel' with
    | zero =>
      have : ¬ a + 1 < 10 := by omega
      simp [drawColorLoop, resampleGuard, this]
    | succ n =>
      simp only [drawColorLoop]
      by_cases hg : resampleGuard hist (rnd a) (a + 1) = true
      · simp only [hg, if_true]
        exact ih n (a + 1) (by omega) (by omega)
      · simp [hg]

theorem drawColorLoop_attempts (hist : List (Fin 10)) (rnd : Nat → Fin 10) (fuel a : Nat)
    (h : 9 ≤ a + fuel) (ha : a < 10) :
    a < (drawColorLoop hist rnd fuel a).2 ∧ (drawColorLoop hist rnd fuel a).2 ≤ 10 := by
  induction fuel generalizing a with
  | zero => simp only [drawColorLoop]; omega
  | succ m ih =>
    simp only [drawColorLoop]
    by_cases hg : resampleGuard hist (rnd a) (a + 1) = true
    · simp only [hg, if_true]
      have h10 : a + 1 < 10 := by
        simp only [resampleGuard, Bool.and_eq_true, decide_eq_true_eq] at hg
        exact hg.1.1.1
      have := ih (a + 1) (by omega) h10
      omega
    · simp only [hg]
      simp only [Bool.false_eq_true, if_false]
      omega

theorem drawColorLoop_repeat (hist : List (Fin 10)) (rnd : Nat → Fin 10) (i : Fin 10)
    (h0 : hist[0]? = some i) (h1 : hist[1]? = some i) (fuel a : Nat)
    (h : 9 ≤ a + fuel) (ha : a < 10)
    (hi : (drawColorLoop hist rnd fuel a).1 = i) :
    (drawColorLoop hist rnd fuel a).2 = 10 ∧ ∀ n, a ≤ n → n < 10 → rnd n = i := by
  have hlen : 2 ≤ hist.length := by
    rcases hist with _ | ⟨x, _ | ⟨y, t⟩⟩ <;> simp at h1 ⊢
  induction fuel generalizing a with
  | zero =>
    simp only [drawColorLoop] at hi ⊢
    refine ⟨by omega, fun n hn hn' => ?_⟩
    have : n = a := by omega
    rw [this, hi]
  | succ m ih =>
    simp only [drawColorLoop] at hi ⊢
    by_cases hg : resampleGuard hist (rnd a) (a + 1) = true
    · simp only [hg, if_true] at hi ⊢
      have hg' := hg
      simp only [resampleGuard, Bool.and_eq_true, decide_eq_true_eq, beq_iff_eq, h0,
        Option.some.injEq] at hg'
      obtain ⟨hfin, hall⟩ := ih (a + 1) (by omega) hg'.1.1.1 hi
      refine ⟨hfin, fun n hn hn' => ?_⟩
      rcases Nat.eq_or_lt_of_le hn with rfl | hlt
      · exact hg'.1.2.symm
      · exact hall n hlt hn'
    · simp only [hg] at hi ⊢
      simp only [Bool.false_eq_true, if_false] at hi ⊢
      have hge : ¬ a + 1 < 10 := by
        intro hlt
        apply hg
        simp [resampleGuard, hlt, hlen, h0, h1, hi]
      refine ⟨by omega, fun n hn hn' => ?_⟩
      have : n = a := by omega
      rw [this, hi]

theorem trackColor_zero (hist : List (Fin 10)) (c : Fin 10) :
    (trackColor hist c)[0]? = some c := by
  rcases hist with _ | ⟨x, _ | ⟨y, _ | ⟨z, t⟩⟩⟩ <;> simp [trackColor, List.dropLast]

theorem trackColor_one (hist : List (Fin 10)) (c : Fin 10) :
    (trackColor hist c)[1]? = hist[0]? := by
  rcases hist with _ | ⟨x, _ | ⟨y, _ | ⟨z, t⟩⟩⟩ <;> simp [trackColor, List.dropLast]

/-- A call that settles on a catalog index is not a red-rose call, and conversely. -/
theorem selectPalette_colorIndex (s : Selector) (rnd : Nat → Fin 10) (i : Fin 10)
    (h : (selectPalette s rnd).1.colorIndex = some i) :
    (selectPalette s rnd).1.attempts = (drawColor s.lastColorIndices rnd).2 ∧
      (drawColor s.lastColorIndices rnd).1 = i ∧
      (selectPalette s rnd).2.lastColorIndices = trackColor s.lastColorIndices i := by
  by_cases h7 : (s.flowerCounter + 1) % 7 = 0
  · rw [selectPalette_red s rnd h7] at h
    simp at h
  · rw [selectPalette_std s rnd h7] at h ⊢
    simp only [Option.some.injEq] at h
    simp [h]

theorem selectPalette_attempts (s : Selector) (rnd : Nat → Fin 10) :
    (selectPalette s rnd).1.attempts ≤ 10 := by
  by_cases h7 : (s.flowerCounter + 1) % 7 = 0
  · rw [selectPalette_red s rnd h7]
    simp
  · rw [selectPalette_std s rnd h7]
    exact (drawColorLoop_attempts _ rnd 10 0 (by omega) (by omega)).2

/-! ## Palette cadence -/

/-- C1: starting from a fresh or just-cleared selector, for every list of sample
streams and every `k` with `1 ≤ k ≤ N`, the `k`-th call of selectPalette
returns the red-rose palette (center #ff4d4d, outer #d40000, isRedRose true)
if and only if `k % 7 = 0`; every other call returns an entry of the ten-entry
catalog with isRedRose false; and after a distinguished call the history is empty. -/
theorem selectPalette_every_seventh (draws : List (Nat → Fin 10)) (k : Nat)
    (h1 : 1 ≤ k) (hk : k ≤ draws.length) :
    ∃ sel, (selectMany Selector.fresh draws).1[k - 1]? = some sel ∧
      (sel.palette = ⟨"#ff4d4d", "#d40000", true⟩ ↔ k % 7 = 0) ∧
      (k % 7 ≠ 0 → sel.palette.isRedRose = false ∧ PETAL_COLORS.length = 10 ∧
        ∃ i : Fin 10, sel.colorIndex = some i ∧
          PETAL_COLORS[i.val]? = some ⟨sel.palette.center, sel.palette.outer⟩) ∧
      (k % 7 = 0 →
        (selectMany Selector.fresh (draws.take k)).2.lastColorIndices = []) := by
  obtain ⟨rnd, -, hsel, hst⟩ := selectMany_getElem? Selector.fresh draws (k - 1) (by omega)
  have hcnt : (selectMany Selector.fresh (draws.take (k - 1))).2.flowerCounter = k - 1 := by
    rw [selectMany_counter, List.length_take]
    simp only [Selector.fresh]
    omega
  have hk1 : k - 1 + 1 = k := by omega
  rw [hk1] at hst
  refine ⟨_, hsel, ?_⟩
  by_cases h7 : k % 7 = 0
  · have hred := selectPalette_red (selectMany Selector.fresh (draws.take (k - 1))).2 rnd
      (by rw [hcnt, hk1]; exact h7)
    refine ⟨?_, fun h => absurd h7 h, fun _ => ?_⟩
    · rw [hred]
      simp [h7, redRosePalette, RED_ROSE_PALETTE]
    · rw [hst, hred]
  · have hstd := selectPalette_std (selectMany Selector.fresh (draws.take (k - 1))).2 rnd
      (by rw [hcnt, hk1]; exact h7)
    refine ⟨?_, fun _ => ?_, fun h => absurd h h7⟩
    · rw [hstd]
      simp [h7, standardPalette]
    · rw [hstd]
      exact ⟨rfl, rfl, _, rfl, standardPalette_catalog _⟩

/-- C1 at a concrete input: seven calls that always sample index 3, seventh call. -/
theorem selectPalette_every_seventh_witness :
    ∃ sel, (selectMany Selector.fresh (List.replicate 7 fun _ => (3 : Fin 10))).1[7 - 1]? =
        some sel ∧
      (sel.palette = ⟨"#ff4d4d", "#d40000", true⟩ ↔ 7 % 7 = 0) ∧
      (7 % 7 ≠ 0 → sel.palette.isRedRose = false ∧ PETAL_COLORS.length = 10 ∧
        ∃ i : Fin 10, sel.colorIndex = some i ∧
          PETAL_COLORS[i.val]? = some ⟨sel.palette.center, sel.palette.outer⟩) ∧
      (7 % 7 = 0 →
        (selectMany Selector.fresh
          ((List.replicate 7 fun _ => (3 : Fin 10)).take 7)).2.lastColorIndices = []) :=
  selectPalette_every_seventh (List.replicate 7 fun _ => (3 : Fin 10)) 7 (by decide) (by decide)

/-! ## Repeat avoidance -/

/-- C2, as stated, fails: with the sample streams of roseSplitDraws the calls 5,
6 and 8 return catalog index 3, they are neighbours once the red-rose call 7 is
skipped, and call 8 drew a single sample. -/
theorem triple_across_red_rose : ¬ TripleExhausts (standardCalls roseSplitDraws) := by
  intro h
  have h8 := (h 4 3 (⟨standardPalette 3, some 3, 1⟩, fun _ => 3)
    (⟨standardPalette 3, some 3, 1⟩, fun _ => 3) (⟨standardPalette 3, some 3, 1⟩, fun _ => 3)
    rfl rfl rfl rfl rfl rfl).1
  exact absurd h8 (by decide)

/-- C2, amended: among the calls since the last clear, whenever three calls in
direct succession (no red-rose call between them) return the same catalog
index `i`, the third drew all ten samples and each of them was `i`; and every
call draws at most ten samples. -/
theorem triple_exhausts_between_roses (draws : List (Nat → Fin 10)) :
    TripleExhausts (selectorCalls draws) ∧
      ∀ c, c ∈ selectorCalls draws → c.1.attempts ≤ 10 := by
  constructor
  · intro j i c1 c2 c3 e1 e2 e3 i1 i2 i3
    simp only [selectorCalls, List.getElem?_zip_eq_some] at e1 e2 e3
    have hlen : j + 2 < draws.length := by
      have := (List.getElem?_eq_some_iff.mp e3.2).1
      exact this
    obtain ⟨r1, d1, t1, s1⟩ := selectMany_getElem? Selector.fresh draws j (by omega)
    obtain ⟨r2, d2, t2, s2⟩ := selectMany_getElem? Selector.fresh draws (j + 1) (by omega)
    obtain ⟨r3, d3, t3, -⟩ := selectMany_getElem? Selector.fresh draws (j + 2) hlen
    have q1 : c1.1 = _ := Option.some.inj (e1.1.symm.trans t1)
    have q2 : c2.1 = _ := Option.some.inj (e2.1.symm.trans t2)
    have q3 : c3.1 = _ := Option.some.inj (e3.1.symm.trans t3)
    have p3 : c3.2 = r3 := Option.some.inj (e3.2.symm.trans d3)
    rw [q1] at i1
    rw [q2] at i2
    rw [q3] at i3
    have k1 := (selectPalette_colorIndex _ _ _ i1).2.2
    have k2 := (selectPalette_colorIndex _ _ _ i2).2.2
    obtain ⟨a3, b3, -⟩ := selectPalette_colorIndex _ _ _ i3
    rw [← s1] at k1
    rw [← s2] at k2
    have z0 : (selectMany Selector.fresh (List.take (j + 1 + 1) draws)).2.lastColorIndices[0]? =
        some i := by rw [k2]; exact trackColor_zero _ _
    have z1 : (selectMany Selector.fresh (List.take (j + 1 + 1) draws)).2.lastColorIndices[1]? =
        some i := by rw [k2, trackColor_one, k1]; exact trackColor_zero _ _
    have := drawColorLoop_repeat _ r3 i z0 z1 10 0 (by omega) (by omega) b3
    rw [q3, a3, p3]
    exact ⟨this.1, fun n hn => this.2 n (Nat.zero_le n) hn⟩
  · intro c hc
    obtain ⟨n, hn, hget⟩ := List.getElem_of_mem hc
    have hn' : n < draws.length := by
      simp only [selectorCalls, List.length_zip, selectMany_length] at hn
      omega
    have e : (selectorCalls draws)[n]? = some c := by
      rw [List.getElem?_eq_getElem hn, hget]
    simp only [selectorCalls, List.getElem?_zip_eq_some] at e
    obtain ⟨r, -, t, -⟩ := selectMany_getElem? Selector.fresh draws n hn'
    have q : c.1 = _ := Option.some.inj (e.1.symm.trans t)
    rw [q]
    exact selectPalette_attempts _ _

/-- C2 amended, at a concrete input: three calls that only ever sample index 3. -/
theorem triple_exhausts_between_roses_witness :
    ∃ c3, (selectorCalls (List.replicate 3 fun _ => (3 : Fin 10)))[2]? = some c3 ∧
      c3.1.colorIndex = some 3 ∧ c3.1.attempts = 10 ∧ ∀ n, n < 10 → c3.2 n = 3 :=
  ⟨(⟨standardPalette 3, some 3, 10⟩, fun _ => 3), rfl, rfl,
    (triple_exhausts_between_roses (List.replicate 3 fun _ => (3 : Fin 10))).1 0 3
      (⟨standardPalette 3, some 3, 1⟩, fun _ => 3) (⟨standardPalette 3, some 3, 1⟩, fun _ => 3)
      (⟨standardPalette 3, some 3, 10⟩, fun _ => 3) rfl rfl rfl rfl rfl rfl⟩

/-! ## Rounding to double precision -/

theorem roundHalfEven_floor_le (q : ℚ) : ⌊q⌋ ≤ roundHalfEven q := by
  unfold roundHalfEven
  split_ifs <;> omega

theorem roundHalfEven_le_floor_succ (q : ℚ) : roundHalfEven q ≤ ⌊q⌋ + 1 := by
  unfold roundHalfEven
  split_ifs <;> omega

theorem roundHalfEven_intCast (n : ℤ) : roundHalfEven (n : ℚ) = n := by
  simp [roundHalfEven]

theorem roundHalfEven_mono {q r : ℚ} (h : q ≤ r) : roundHalfEven q ≤ roundHalfEven r := by
  rcases (Int.floor_mono h).lt_or_eq with hlt | heq
  · have a := roundHalfEven_le_floor_succ q
    have b := roundHalfEven_floor_le r
    omega
  · unfold roundHalfEven
    rw [← heq]
    split_ifs <;> first | omega | (exfalso; linarith)

theorem roundHalfEven_near (q : ℚ) (m : ℤ) (h : |q - m| < 1 / 2) : roundHalfEven q = m := by
  rw [abs_lt] at h
  rcases le_or_lt (m : ℚ) q with hle | hlt
  · have hf : ⌊q⌋ = m := Int.floor_eq_iff.mpr ⟨hle, by linarith⟩
    unfold roundHalfEven
    rw [hf]
    have : q - m < 1 / 2 := by linarith
    rw [if_pos this]
  · have hf : ⌊q⌋ = m - 1 := Int.floor_eq_iff.mpr ⟨by push_cast; linarith, by push_cast; linarith⟩
    unfold roundHalfEven
    rw [hf]
    have h1 : ¬ q - ((m - 1 : ℤ) : ℚ) < 1 / 2 := by push_cast; linarith
    have h2 : 1 / 2 < q - ((m - 1 : ℤ) : ℚ) := by push_cast; linarith
    rw [if_neg h1, if_pos h2]
    omega

theorem ulp_pos (x : ℚ) : (0 : ℚ) < 2 ^ ulpExponent x := zpow_pos (by norm_num) _

theorem roundDouble_le_grid (x : ℚ) (n : ℤ) (h : x ≤ n * 2 ^ ulpExponent x) :
    roundDouble x ≤ n * 2 ^ ulpExponent x := by
  have hu := ulp_pos x
  have h1 : x / 2 ^ ulpExponent x ≤ (n : ℚ) := by rwa [div_le_iff₀ hu]
  have h2 := roundHalfEven_mono h1
  rw [roundHalfEven_intCast] at h2
  have h3 : (roundHalfEven (x / 2 ^ ulpExponent x) : ℚ) ≤ (n : ℚ) := by exact_mod_cast h2
  exact mul_le_mul_of_nonneg_right h3 hu.le

theorem grid_le_roundDouble (x : ℚ) (n : ℤ) (h : n * 2 ^ ulpExponent x ≤ x) :
    n * 2 ^ ulpExponent x ≤ roundDouble x := by
  have hu := ulp_pos x
  have h1 : (n : ℚ) ≤ x / 2 ^ ulpExponent x := by rwa [le_div_iff₀ hu]
  have h2 := roundHalfEven_mono h1
  rw [roundHalfEven_intCast] at h2
  have h3 : (n : ℚ) ≤ (roundHalfEven (x / 2 ^ ulpExponent x) : ℚ) := by exact_mod_cast h2
  exact mul_le_mul_of_nonneg_right h3 hu.le

theorem roundDouble_nonneg (x : ℚ) (h : 0 ≤ x) : 0 ≤ roundDouble x := by
  have := grid_le_roundDouble x 0 (by simpa using h)
  simpa using this

theorem roundDouble_nonpos (x : ℚ) (h : x ≤ 0) : roundDouble x ≤ 0 := by
  have := roundDouble_le_grid x 0 (by simpa using h)
  simpa using this

theorem roundDouble_zero : roundDouble 0 = 0 :=
  le_antisymm (roundDouble_nonpos 0 le_rfl) (roundDouble_nonneg 0 le_rfl)

/-- The binade of a number: `2 ^ e ≤ |x| < 2 ^ (e + 1)` fixes the logarithm. -/
theorem log_abs_eq (x : ℚ) (e : ℤ) (h1 : 2 ^ e ≤ |x|) (h2 : |x| < 2 ^ (e + 1)) :
    Int.log 2 |x| = e := by
  have hpos : 0 < |x| := lt_of_lt_of_le (zpow_pos (by norm_num) e) h1
  have a : e ≤ Int.log 2 |x| := (Int.zpow_le_iff_le_log (by norm_num) hpos).mp (by simpa using h1)
  have b : Int.log 2 |x| < e + 1 := (Int.lt_zpow_iff_log_lt (by norm_num) hpos).mp (by simpa using h2)
  omega

theorem abs_lt_binade (x : ℚ) : |x| < 2 ^ (ulpExponent x + 53) := by
  have h := Int.lt_zpow_succ_log_self (b := 2) (by norm_num) |x|
  have hle : Int.log 2 |x| + 1 ≤ ulpExponent x + 53 := by
    unfold ulpExponent
    have := le_max_left (Int.log 2 |x|) (-1022)
    omega
  have := zpow_le_zpow_right₀ (a := (2 : ℚ)) (by norm_num) hle
  simp only [Nat.cast_ofNat] at h
  exact lt_of_lt_of_le h this

theorem binade_le_abs (x : ℚ) (hx : x ≠ 0) (h : -1022 - 52 < ulpExponent x) :
    2 ^ (ulpExponent x + 52) ≤ |x| := by
  have hpos : 0 < |x| := abs_pos.mpr hx
  have hlog : ulpExponent x + 52 = Int.log 2 |x| := by
    unfold ulpExponent at h ⊢
    rcases max_cases (Int.log 2 |x|) (-1022) with ⟨a, -⟩ | ⟨a, -⟩ <;> omega
  rw [hlog]
  simpa using Int.zpow_log_le_self (b := 2) (by norm_num) hpos

theorem ulpExponent_mono (x y : ℚ) (hx : x ≠ 0) (h : |x| ≤ |y|) :
    ulpExponent x ≤ ulpExponent y := by
  have := Int.log_mono_right (b := 2) (abs_pos.mpr hx) h
  unfold ulpExponent
  have := max_le_max this (le_refl (-1022 : ℤ))
  omega

theorem ulpExponent_ge (x : ℚ) : -1074 ≤ ulpExponent x := by
  unfold ulpExponent
  have := le_max_right (Int.log 2 |x|) (-1022)
  omega

theorem two_zpow_52 (k : ℤ) : (((2 : ℤ) ^ 52 : ℤ) : ℚ) * 2 ^ k = 2 ^ (k + 52) := by
  rw [zpow_add₀ (by norm_num : (2 : ℚ) ≠ 0)]
  norm_num
  ring

theorem two_zpow_53 (k : ℤ) : (((2 : ℤ) ^ 53 : ℤ) : ℚ) * 2 ^ k = 2 ^ (k + 53) := by
  rw [zpow_add₀ (by norm_num : (2 : ℚ) ≠ 0)]
  norm_num
  ring

theorem roundDouble_mono_same (x y : ℚ) (h : x ≤ y) (he : ulpExponent x = ulpExponent y) :
    roundDouble x ≤ roundDouble y := by
  unfold roundDouble
  rw [he]
  have hu := ulp_pos y
  have h1 : x / 2 ^ ulpExponent y ≤ y / 2 ^ ulpExponent y :=
    div_le_div_of_nonneg_right h hu.le
  have h2 : (roundHalfEven (x / 2 ^ ulpExponent y) : ℚ) ≤ roundHalfEven (y / 2 ^ ulpExponent y) := by
    exact_mod_cast roundHalfEven_mono h1
  exact mul_le_mul_of_nonneg_right h2 hu.le

theorem roundDouble_mono_pos (x y : ℚ) (hx : 0 < x) (h : x ≤ y) :
    roundDouble x ≤ roundDouble y := by
  have hy : 0 < y := lt_of_lt_of_le hx h
  have habs : |x| ≤ |y| := by rwa [abs_of_pos hx, abs_of_pos hy]
  rcases (ulpExponent_mono x y hx.ne' habs).lt_or_eq with hlt | heq
  · have a : roundDouble x ≤ 2 ^ (ulpExponent x + 53) := by
      rw [← two_zpow_53]
      apply roundDouble_le_grid
      rw [two_zpow_53]
      exact le_trans (le_abs_self x) (abs_lt_binade x).le
    have b : (2 : ℚ) ^ (ulpExponent y + 52) ≤ roundDouble y := by
      rw [← two_zpow_52]
      apply grid_le_roundDouble
      rw [two_zpow_52]
      have := binade_le_abs y hy.ne' (by have := ulpExponent_ge x; omega)
      rwa [abs_of_pos hy] at this
    have c : (2 : ℚ) ^ (ulpExponent x + 53) ≤ 2 ^ (ulpExponent y + 52) :=
      zpow_le_zpow_right₀ (by norm_num) (by omega)
    exact le_trans a (le_trans c b)
  · exact roundDouble_mono_same x y h heq

theorem roundDouble_mono_neg (x y : ℚ) (hy : y < 0) (h : x ≤ y) :
    roundDouble x ≤ roundDouble y := by
  have hx : x < 0 := lt_of_le_of_lt h hy
  have habs : |y| ≤ |x| := by
    rw [abs_of_neg hx, abs_of_neg hy]
    linarith
  rcases (ulpExponent_mono y x hy.ne habs).lt_or_eq with hlt | heq
  · have a : roundDouble x ≤ -2 ^ (ulpExponent x + 52) := by
      have key : x ≤ ((-(2 : ℤ) ^ 52 : ℤ) : ℚ) * 2 ^ ulpExponent x := by
        have := binade_le_abs x hx.ne (by have := ulpExponent_ge y; omega)
        rw [abs_of_neg hx, ← two_zpow_52] at this
        push_cast at this ⊢
        linarith
      have := roundDouble_le_grid x _ key
      rw [← two_zpow_52]
      push_cast at this ⊢
      linarith
    have b : -(2 : ℚ) ^ (ulpExponent y + 53) ≤ roundDouble y := by
      have key : ((-(2 : ℤ) ^ 53 : ℤ) : ℚ) * 2 ^ ulpExponent y ≤ y := by
        have := abs_lt_binade y
        rw [abs_of_neg hy, ← two_zpow_53] at this
        push_cast at this ⊢
        linarith
      have := grid_le_roundDouble y _ key
      rw [← two_zpow_53]
      push_cast at this ⊢
      linarith
    have c : (2 : ℚ) ^ (ulpExponent y + 53) ≤ 2 ^ (ulpExponent x + 52) :=
      zpow_le_zpow_right₀ (by norm_num) (by omega)
    linarith
  · exact roundDouble_mono_same x y h heq.symm

/-- Rounding to binary64 is monotone. -/
theorem roundDouble_mono {x y : ℚ} (h : x ≤ y) : roundDouble x ≤ roundDouble y := by
  rcases lt_trichotomy 0 x with hx | hx | hx
  · exact roundDouble_mono_pos x y hx h
  · subst hx
    rw [roundDouble_zero]
    exact roundDouble_nonneg y h
  · rcases lt_or_le y 0 with hy | hy
    · exact roundDouble_mono_neg x y hy h
    · exact le_trans (roundDouble_nonpos x hx.le) (roundDouble_nonneg y hy)

/-- Evaluation of the rounding from the binade `e` and the nearest significand `m`. -/
theorem roundDouble_eq (x : ℚ) (e m : ℤ) (he : -1022 ≤ e) (h1 : 2 ^ e ≤ |x|)
    (h2 : |x| < 2 ^ (e + 1)) (hm : |x / 2 ^ (e - 52) - m| < 1 / 2) :
    roundDouble x = m * 2 ^ (e - 52) := by
  have hk : ulpExponent x = e - 52 := by
    unfold ulpExponent
    rw [log_abs_eq x e h1 h2, max_eq_left he]
  unfold roundDouble
  rw [hk, roundHalfEven_near _ m hm]

theorem roundDouble_one : roundDouble 1 = 1 := by
  have := roundDouble_eq 1 0 (2 ^ 52) (by norm_num) (by norm_num) (by norm_num) (by norm_num)
  rw [this]
  norm_num

/-! ## Stem interpolation in double precision -/

theorem roundDouble_unit_range (x : ℚ) (h0 : 0 ≤ x) (h1 : x ≤ 1) :
    0 ≤ roundDouble x ∧ roundDouble x ≤ 1 :=
  ⟨roundDouble_nonneg x h0, roundDouble_one ▸ roundDouble_mono h1⟩

theorem easeOutCubicDouble_range (pow3 : ℚ → ℚ)
    (hpow : ∀ x, 0 ≤ x → x ≤ 1 → 0 ≤ pow3 x ∧ pow3 x ≤ 1) (p : ℚ) (h0 : 0 ≤ p) (h1 : p ≤ 1) :
    0 ≤ easeOutCubicDouble pow3 p ∧ easeOutCubicDouble pow3 p ≤ 1 := by
  obtain ⟨a, b⟩ := roundDouble_unit_range (1 - p) (by linarith) (by linarith)
  obtain ⟨c, d⟩ := hpow _ a b
  exact roundDouble_unit_range _ (by linarith) (by linarith)

theorem easeOutCubicDouble_zero (pow3 : ℚ → ℚ) (hpow1 : pow3 1 = 1) :
    easeOutCubicDouble pow3 0 = 0 := by
  simp [easeOutCubicDouble, roundDouble_one, hpow1, roundDouble_zero]

theorem easeOutCubicDouble_one (pow3 : ℚ → ℚ) (hpow0 : pow3 0 = 0) :
    easeOutCubicDouble pow3 1 = 1 := by
  simp [easeOutCubicDouble, roundDouble_one, hpow0, roundDouble_zero]

/-- A rounded product with a factor in the unit interval stays between 0 and the
rounded product with the factor 1. -/
theorem roundDouble_mul_between (d t : ℚ) (h0 : 0 ≤ t) (h1 : t ≤ 1) :
    min 0 (roundDouble (d * 1)) ≤ roundDouble (d * t) ∧
      roundDouble (d * t) ≤ max 0 (roundDouble (d * 1)) := by
  rcases le_total 0 d with hd | hd
  · have a : 0 ≤ roundDouble (d * t) := roundDouble_nonneg _ (mul_nonneg hd h0)
    have b : roundDouble (d * t) ≤ roundDouble (d * 1) :=
      roundDouble_mono (mul_le_mul_of_nonneg_left h1 hd)
    exact ⟨le_trans (min_le_left _ _) a, le_trans b (le_max_right _ _)⟩
  · have a : roundDouble (d * t) ≤ 0 :=
      roundDouble_nonpos _ (mul_nonpos_of_nonpos_of_nonneg hd h0)
    have b : roundDouble (d * 1) ≤ roundDouble (d * t) :=
      roundDouble_mono (mul_le_mul_of_nonpos_left h1 hd)
    exact ⟨le_trans (min_le_right _ _) b, le_trans a (le_max_left _ _)⟩

/-- A monotone function keeps a value between two others between their images. -/
theorem between_of_monotone (g : ℚ → ℚ) (hg : Monotone g) (a b q : ℚ)
    (h : min a b ≤ q ∧ q ≤ max a b) : min (g a) (g b) ≤ g q ∧ g q ≤ max (g a) (g b) := by
  rcases le_total a b with hab | hab
  · rw [min_eq_left hab, max_eq_right hab] at h
    exact ⟨le_trans (min_le_left _ _) (hg h.1), le_trans (hg h.2) (le_max_right _ _)⟩
  · rw [min_eq_right hab, max_eq_left hab] at h
    exact ⟨le_trans (min_le_right _ _) (hg h.1), le_trans (hg h.2) (le_max_left _ _)⟩

theorem between_of_antitone (g : ℚ → ℚ) (hg : Antitone g) (a b q : ℚ)
    (h : min a b ≤ q ∧ q ≤ max a b) : min (g a) (g b) ≤ g q ∧ g q ≤ max (g a) (g b) := by
  rcases le_total a b with hab | hab
  · rw [min_eq_left hab, max_eq_right hab] at h
    exact ⟨le_trans (min_le_right _ _) (hg h.2), le_trans (hg h.1) (le_max_left _ _)⟩
  · rw [min_eq_right hab, max_eq_left hab] at h
    exact ⟨le_trans (min_le_left _ _) (hg h.2), le_trans (hg h.1) (le_max_right _ _)⟩

theorem cubeDouble_zero : cubeDouble 0 = 0 := by
  simp [cubeDouble, roundDouble_zero]

theorem cubeDouble_one : cubeDouble 1 = 1 := by
  simp [cubeDouble, roundDouble_one]

theorem cubeDouble_range (x : ℚ) (h0 : 0 ≤ x) (h1 : x ≤ 1) :
    0 ≤ cubeDouble x ∧ cubeDouble x ≤ 1 :=
  roundDouble_unit_range _ (pow_nonneg h0 3) (pow_le_one₀ h0 h1)

theorem stemPointDouble_between (pow3 : ℚ → ℚ) (flower : Flower) (p : ℚ)
    (hpow0 : pow3 0 = 0)
    (hpow : ∀ x, 0 ≤ x → x ≤ 1 → 0 ≤ pow3 x ∧ pow3 x ≤ 1)
    (hsx : roundDouble flower.startX = flower.startX)
    (hsy : roundDouble flower.startY = flower.startY)
    (h0 : 0 ≤ p) (h1 : p ≤ 1) :
    (min flower.startX (stemPointDouble pow3 flower 1).1 ≤ (stemPointDouble pow3 flower p).1 ∧
      (stemPointDouble pow3 flower p).1 ≤ max flower.startX (stemPointDouble pow3 flower 1).1) ∧
    (min flower.startY (stemPointDouble pow3 flower 1).2 ≤ (stemPointDouble pow3 flower p).2 ∧
      (stemPointDouble pow3 flower p).2 ≤ max flower.startY (stemPointDouble pow3 flower 1).2) := by
  obtain ⟨t0, t1⟩ := easeOutCubicDouble_range pow3 hpow p h0 h1
  have e1 := easeOutCubicDouble_one pow3 hpow0
  have mx : Monotone fun q => roundDouble (flower.startX + q) :=
    fun a b hab => roundDouble_mono (by linarith)
  have my : Antitone fun q => roundDouble (flower.startY - q) :=
    fun a b hab => roundDouble_mono (by linarith)
  have bx := between_of_monotone _ mx 0 _ _
    (roundDouble_mul_between (roundDouble (flower.targetX - flower.startX)) _ t0 t1)
  have hby := between_of_antitone _ my 0 _ _
    (roundDouble_mul_between (roundDouble (flower.startY - flower.targetY)) _ t0 t1)
  simp only [add_zero, sub_zero, hsx, hsy] at bx hby
  simp only [stemPointDouble, e1]
  exact ⟨bx, hby⟩

/-- C7, as stated, fails in double precision: for the flower pressed at
(100, 100.3) in a viewport 800 high (100.3 being the double
7057985041019699 / 2^46), drawStem at progress 1 writes
currentY = 7057985041019696 / 2^46 = 100.29999999999995..., which is not the
target and lies beyond it, outside the segment from startY = 800 to targetY. -/
theorem stem_misses_fractional_target :
    roundDouble (1003 / 10) = fractionalFlower.targetY ∧
    fractionalFlower.startY = 800 ∧
    (drawStemDouble cubeDouble flatSin fractionalFlower 1 900).currentY =
      some (7057985041019696 / 70368744177664) ∧
    (7057985041019696 / 70368744177664 : ℚ) < fractionalFlower.targetY ∧
    fractionalFlower.targetY < fractionalFlower.startY := by
  have r0 : roundDouble (1003 / 10) = 7057985041019699 / 70368744177664 := by
    rw [roundDouble_eq (1003 / 10) 6 7057985041019699 (by norm_num)
      (by norm_num [abs_of_pos]) (by norm_num [abs_of_pos]) (by norm_num [abs_lt])]
    norm_num
  have r1 : roundDouble (800 - 7057985041019699 / 70368744177664) =
      6154626287638938 / 8796093022208 := by
    rw [roundDouble_eq (800 - 7057985041019699 / 70368744177664) 9 6154626287638938
      (by norm_num) (by norm_num [abs_of_pos]) (by norm_num [abs_of_pos])
      (by norm_num [abs_lt])]
    norm_num
  have r2 : roundDouble (6154626287638938 / 8796093022208) =
      6154626287638938 / 8796093022208 := by
    rw [roundDouble_eq (6154626287638938 / 8796093022208) 9 6154626287638938
      (by norm_num) (by norm_num [abs_of_pos]) (by norm_num [abs_of_pos])
      (by norm_num [abs_lt])]
    norm_num
  have r3 : roundDouble (800 - 6154626287638938 / 8796093022208) =
      7057985041019696 / 70368744177664 := by
    rw [roundDouble_eq (800 - 6154626287638938 / 8796093022208) 6 7057985041019696
      (by norm_num) (by norm_num [abs_of_pos]) (by norm_num [abs_of_pos])
      (by norm_num [abs_lt])]
    norm_num
  have e1 := easeOutCubicDouble_one cubeDouble cubeDouble_zero
  refine ⟨r0, rfl, ?_, ?_, ?_⟩
  · simp only [drawStemDouble, e1, fractionalFlower, newFlower, mul_one, r1, r2, r3]
  · norm_num [fractionalFlower, newFlower]
  · norm_num [fractionalFlower, newFlower]

/-- C7, amended to the arithmetic the code runs: for every flower whose start
coordinates are doubles and every progress `p` with `0 ≤ p ≤ 1`, drawStem in
double precision computes `t` by rounding `1 - Math.pow(1 - p, 3)`, with
`0 ≤ t ≤ 1`, and the point obtained by rounding every operation of
`startX + (targetX - startX) * t` and `startY - (startY - targetY) * t`.  Each
coordinate of that point lies between the start coordinate and the coordinate
computed at `p = 1`; the point is the start point at `p = 0`; at `p = 1` a
coordinate equals the target coordinate whenever the target coordinate and its
difference from the start coordinate are doubles; and when the bloom is not
complete the point is exactly what drawStem writes to currentX / currentY.
`Math.pow(x, 3)` may be any function that sends 0 to 0, 1 to 1 and the unit
interval into itself. -/
theorem drawStem_interpolation_double (pow3 sin : ℚ → ℚ) (flower : Flower) (p now : ℚ)
    (hpow0 : pow3 0 = 0) (hpow1 : pow3 1 = 1)
    (hpow : ∀ x, 0 ≤ x → x ≤ 1 → 0 ≤ pow3 x ∧ pow3 x ≤ 1)
    (hsx : roundDouble flower.startX = flower.startX)
    (hsy : roundDouble flower.startY = flower.startY)
    (h0 : 0 ≤ p) (h1 : p ≤ 1) :
    easeOutCubicDouble pow3 p = roundDouble (1 - pow3 (roundDouble (1 - p))) ∧
    0 ≤ easeOutCubicDouble pow3 p ∧ easeOutCubicDouble pow3 p ≤ 1 ∧
    stemPointDouble pow3 flower p =
      (roundDouble (flower.startX +
          roundDouble (roundDouble (flower.targetX - flower.startX) *
            easeOutCubicDouble pow3 p)),
        roundDouble (flower.startY -
          roundDouble (roundDouble (flower.startY - flower.targetY) *
            easeOutCubicDouble pow3 p))) ∧
    (min flower.startX (stemPointDouble pow3 flower 1).1 ≤ (stemPointDouble pow3 flower p).1 ∧
      (stemPointDouble pow3 flower p).1 ≤ max flower.startX (stemPointDouble pow3 flower 1).1) ∧
    (min flower.startY (stemPointDouble pow3 flower 1).2 ≤ (stemPointDouble pow3 flower p).2 ∧
      (stemPointDouble pow3 flower p).2 ≤ max flower.startY (stemPointDouble pow3 flower 1).2) ∧
    stemPointDouble pow3 flower 0 = (flower.startX, flower.startY) ∧
    (roundDouble flower.targetX = flower.targetX →
      roundDouble (flower.targetX - flower.startX) = flower.targetX - flower.startX →
      (stemPointDouble pow3 flower 1).1 = flower.targetX) ∧
    (roundDouble flower.targetY = flower.targetY →
      roundDouble (flower.startY - flower.targetY) = flower.startY - flower.targetY →
      (stemPointDouble pow3 flower 1).2 = flower.targetY) ∧
    (drawStemDouble pow3 sin flower p now).currentY = some (stemPointDouble pow3 flower p).2 ∧
    (flower.bloomComplete = false →
      (drawStemDouble pow3 sin flower p now).currentX =
        some (stemPointDouble pow3 flower p).1) := by
  obtain ⟨t0, t1⟩ := easeOutCubicDouble_range pow3 hpow p h0 h1
  obtain ⟨bx, hby⟩ := stemPointDouble_between pow3 flower p hpow0 hpow hsx hsy h0 h1
  have e0 := easeOutCubicDouble_zero pow3 hpow1
  have e1 := easeOutCubicDouble_one pow3 hpow0
  refine ⟨rfl, t0, t1, rfl, bx, hby, ?_, ?_, ?_, rfl, ?_⟩
  · simp only [stemPointDouble, e0, mul_zero, roundDouble_zero, add_zero, sub_zero, hsx, hsy]
  · intro ht hd
    simp only [stemPointDouble, e1, mul_one, hd]
    rw [show flower.startX + (flower.targetX - flower.startX) = flower.targetX by ring, ht]
  · intro ht hd
    simp only [stemPointDouble, e1, mul_one, hd]
    rw [show flower.startY - (flower.startY - flower.targetY) = flower.targetY by ring, ht]
  · intro hb
    simp [drawStemDouble, stemPointDouble, hb]

theorem roundDouble_100 : roundDouble 100 = 100 := by
  rw [roundDouble_eq 100 6 7036874417766400 (by norm_num) (by norm_num [abs_of_pos])
    (by norm_num [abs_of_pos]) (by norm_num [abs_lt])]
  norm_num

theorem roundDouble_800 : roundDouble 800 = 800 := by
  rw [roundDouble_eq 800 9 7036874417766400 (by norm_num) (by norm_num [abs_of_pos])
    (by norm_num [abs_of_pos]) (by norm_num [abs_lt])]
  norm_num

theorem roundDouble_700 : roundDouble 700 = 700 := by
  rw [roundDouble_eq 700 9 6157265115545600 (by norm_num) (by norm_num [abs_of_pos])
    (by norm_num [abs_of_pos]) (by norm_num [abs_lt])]
  norm_num

/-- C7 amended, at a concrete input: the sample flower (start (100, 800), target
(100, 100), all of them doubles with exact differences) at progress 1/2, with a
correctly rounded cube for `Math.pow`. -/
theorem drawStem_interpolation_double_witness :
    cubeDouble 0 = 0 ∧ cubeDouble 1 = 1 ∧
    (∀ x, 0 ≤ x → x ≤ 1 → 0 ≤ cubeDouble x ∧ cubeDouble x ≤ 1) ∧
    roundDouble sampleFlower.startX = sampleFlower.startX ∧
    roundDouble sampleFlower.startY = sampleFlower.startY ∧
    (0 : ℚ) ≤ 1 / 2 ∧ (1 / 2 : ℚ) ≤ 1 ∧
    0 ≤ easeOutCubicDouble cubeDouble (1 / 2) ∧ easeOutCubicDouble cubeDouble (1 / 2) ≤ 1 ∧
    stemPointDouble cubeDouble sampleFlower 0 = (sampleFlower.startX, sampleFlower.startY) ∧
    (stemPointDouble cubeDouble sampleFlower 1).2 = sampleFlower.targetY ∧
    (drawStemDouble cubeDouble flatSin sampleFlower (1 / 2) 5).currentY =
      some (stemPointDouble cubeDouble sampleFlower (1 / 2)).2 :=
  have hsx : roundDouble sampleFlower.startX = sampleFlower.startX := by
    norm_num [sampleFlower, newFlower, sampleSeed, rand, roundDouble_100]
  have hsy : roundDouble sampleFlower.startY = sampleFlower.startY := by
    norm_num [sampleFlower, newFlower, roundDouble_800]
  have hty : roundDouble sampleFlower.targetY = sampleFlower.targetY := by
    norm_num [sampleFlower, newFlower, roundDouble_100]
  have hdy : roundDouble (sampleFlower.startY - sampleFlower.targetY) =
      sampleFlower.startY - sampleFlower.targetY := by
    norm_num [sampleFlower, newFlower, roundDouble_700]
  have h := drawStem_interpolation_double cubeDouble flatSin sampleFlower (1 / 2) 5
    cubeDouble_zero cubeDouble_one cubeDouble_range hsx hsy (by norm_num) (by norm_num)
  ⟨cubeDouble_zero, cubeDouble_one, cubeDouble_range, hsx, hsy, by norm_num, by norm_num,
    h.2.1, h.2.2.1, h.2.2.2.2.2.2.1, h.2.2.2.2.2.2.2.2.1 hty hdy, h.2.2.2.2.2.2.2.2.2.1⟩

/-! ## Ambient particles -/

theorem rand_range (W u : ℚ) (hW : 0 ≤ W) (hu0 : 0 ≤ u) (hu1 : u < 1) :
    0 ≤ rand 0 W u ∧ rand 0 W u ≤ W := by
  unfold rand
  constructor
  · have := mul_nonneg hu0 hW
    linarith
  · have : u * W ≤ 1 * W := mul_le_mul_of_nonneg_right hu1.le hW
    linarith

theorem updateFirefly_bounds (W H u : ℚ) (f : Firefly)
    (hW : 0 ≤ W) (hu0 : 0 ≤ u) (hu1 : u < 1) :
    (-10 ≤ (updateFirefly W H u f).x ∧ (updateFirefly W H u f).x ≤ W + 10) ∧
    (f.y + f.speedY < -10 →
      (updateFirefly W H u f).y = H + 10 ∧ (updateFirefly W H u f).x = rand 0 W u ∧
      0 ≤ (updateFirefly W H u f).x ∧ (updateFirefly W H u f).x ≤ W) := by
  obtain ⟨r0, r1⟩ := rand_range W u hW hu0 hu1
  have key : ∀ x : ℚ,
      -10 ≤ (if (if x < -10 then W + 10 else x) > W + 10 then -10
        else (if x < -10 then W + 10 else x)) ∧
      (if (if x < -10 then W + 10 else x) > W + 10 then -10
        else (if x < -10 then W + 10 else x)) ≤ W + 10 := by
    intro x
    split_ifs <;> constructor <;> linarith
  constructor
  · exact key _
  · intro hy
    have e1 : ¬ rand 0 W u < -10 := by linarith
    have e2 : ¬ W + 10 < rand 0 W u := by
      intro h
      linarith
    simp [updateFirefly, hy, e1, e2, r0, r1]

/-- C9: for every particle and every viewport of width `W ≥ 0` and height `H`,
one updateFireflies step (with samples of `Math.random()` in `[0, 1)`) leaves
each particle's x within `[-10, W + 10]`; and if the drifted y, `y + speedY`,
is below -10 the particle's y becomes `H + 10` and its x a fresh sample
`rand(0, W)`, which lies in `[0, W]`. -/
theorem updateFireflies_bounds (W H : ℚ) (us : Nat → ℚ) (fireflies : List Firefly)
    (hW : 0 ≤ W) (hus : ∀ i, 0 ≤ us i ∧ us i < 1) (i : Nat) (f : Firefly)
    (hf : fireflies[i]? = some f) :
    ∃ g, (updateFireflies W H us fireflies)[i]? = some g ∧
      -10 ≤ g.x ∧ g.x ≤ W + 10 ∧
      (f.y + f.speedY < -10 →
        g.y = H + 10 ∧ g.x = rand 0 W (us i) ∧ 0 ≤ g.x ∧ g.x ≤ W) := by
  refine ⟨updateFirefly W H (us i) f, by simp [updateFireflies, hf], ?_⟩
  obtain ⟨⟨a, b⟩, c⟩ := updateFirefly_bounds W H (us i) f hW (hus i).1 (hus i).2
  exact ⟨a, b, c⟩

/-- C9 at a concrete input: a particle at y = -9.9 drifting up by 0.5 in an
800 by 600 viewport, with every sample equal to 1/4. -/
theorem updateFireflies_bounds_witness :
    (0 : ℚ) ≤ 800 ∧ (∀ i : Nat, 0 ≤ quarterSamples i ∧ quarterSamples i < 1) ∧
    [sampleFirefly][0]? = some sampleFirefly ∧
    ∃ g : Firefly, (updateFireflies 800 600 quarterSamples [sampleFirefly])[0]? = some g ∧
      -10 ≤ g.x ∧ g.x ≤ 800 + 10 ∧
      (sampleFirefly.y + sampleFirefly.speedY < -10 →
        g.y = 600 + 10 ∧ g.x = rand 0 800 (quarterSamples 0) ∧ 0 ≤ g.x ∧ g.x ≤ 800) :=
  ⟨by norm_num, fun _ => by norm_num [quarterSamples], rfl,
    updateFireflies_bounds 800 600 quarterSamples [sampleFirefly] (by norm_num)
      (fun _ => by norm_num [quarterSamples]) 0 sampleFirefly rfl⟩

/-! ## Flower lifecycle -/

@[simp] theorem drawStem_stemComplete (sin : ℚ → ℚ) (f : Flower) (p now : ℚ) :
    (drawStem sin f p now).stemComplete = f.stemComplete := rfl

@[simp] theorem drawStem_bloomComplete (sin : ℚ → ℚ) (f : Flower) (p now : ℚ) :
    (drawStem sin f p now).bloomComplete = f.bloomComplete := rfl

@[simp] theorem drawStem_bloomStartTime (sin : ℚ → ℚ) (f : Flower) (p now : ℚ) :
    (drawStem sin f p now).bloomStartTime = f.bloomStartTime := rfl

@[simp] theorem drawStem_bloomStartAssignments (sin : ℚ → ℚ) (f : Flower) (p now : ℚ) :
    (drawStem sin f p now).bloomStartAssignments = f.bloomStartAssignments := rfl

@[simp] theorem drawStem_palette (sin : ℚ → ℚ) (f : Flower) (p now : ℚ) :
    (drawStem sin f p now).palette = f.palette := rfl

@[simp] theorem drawStem_targetY (sin : ℚ → ℚ) (f : Flower) (p now : ℚ) :
    (drawStem sin f p now).targetY = f.targetY := rfl

@[simp] theorem drawStem_startY (sin : ℚ → ℚ) (f : Flower) (p now : ℚ) :
    (drawStem sin f p now).startY = f.startY := rfl

/-- A frame on a Growing flower: either the stem completes and the bloom start is
assigned the frame's clock reading, or nothing but the head position changes. -/
theorem animateFlower_growing (sin : ℚ → ℚ) (now : ℚ) (f : Flower)
    (hs : f.stemComplete = false) :
    ((animateFlower sin now f).flower.stemComplete = true ∧
      (animateFlower sin now f).flower.bloomStartTime = some now ∧
      (animateFlower sin now f).flower.bloomStartAssignments = f.bloomStartAssignments + 1 ∨
     (animateFlower sin now f).flower.stemComplete = false ∧
      (animateFlower sin now f).flower.bloomStartTime = f.bloomStartTime ∧
      (animateFlower sin now f).flower.bloomStartAssignments = f.bloomStartAssignments) ∧
    (animateFlower sin now f).flower.bloomComplete = f.bloomComplete ∧
    (animateFlower sin now f).flower.palette = f.palette ∧
    (animateFlower sin now f).head = none := by
  unfold animateFlower
  simp only [hs, Bool.not_false, if_true]
  split_ifs <;> simp [hs]

/-- A frame on a flower whose stem is complete leaves the stem flag, the bloom
start and its assignment count alone, and never clears the bloom flag. -/
theorem animateFlower_grown (sin : ℚ → ℚ) (now : ℚ) (f : Flower)
    (hs : f.stemComplete = true) :
    (animateFlower sin now f).flower.stemComplete = true ∧
    (animateFlower sin now f).flower.bloomStartTime = f.bloomStartTime ∧
    (animateFlower sin now f).flower.bloomStartAssignments = f.bloomStartAssignments ∧
    (f.bloomComplete = true → (animateFlower sin now f).flower.bloomComplete = true) ∧
    (animateFlower sin now f).flower.palette = f.palette := by
  unfold animateFlower
  simp only [hs, Bool.not_true, Bool.false_eq_true, if_false]
  split_ifs <;> simp_all

theorem flowerStep_redraw (sin : ℚ → ℚ) (now : ℚ) (f : Flower) :
    (redrawFlower sin now f).stemComplete = f.stemComplete ∧
    (redrawFlower sin now f).bloomComplete = f.bloomComplete ∧
    (redrawFlower sin now f).bloomStartTime = f.bloomStartTime ∧
    (redrawFlower sin now f).bloomStartAssignments = f.bloomStartAssignments ∧
    (redrawFlower sin now f).palette = f.palette :=
  ⟨rfl, rfl, rfl, rfl, rfl⟩

/-- The link between the stem flag and the bloom start of a flower. -/
theorem flowerStep_bloomStart (sin : ℚ → ℚ) (f : Flower) (e : FlowerEvent)
    (h0 : f.stemComplete = false → f.bloomStartTime = none ∧ f.bloomStartAssignments = 0)
    (h1 : f.stemComplete = true → f.bloomStartTime ≠ none ∧ f.bloomStartAssignments = 1) :
    ((flowerStep sin f e).stemComplete = false →
      (flowerStep sin f e).bloomStartTime = none ∧
      (flowerStep sin f e).bloomStartAssignments = 0) ∧
    ((flowerStep sin f e).stemComplete = true →
      (flowerStep sin f e).bloomStartTime ≠ none ∧
      (flowerStep sin f e).bloomStartAssignments = 1) ∧
    (f.stemComplete = true →
      (flowerStep sin f e).stemComplete = true ∧
      (flowerStep sin f e).bloomStartTime = f.bloomStartTime) ∧
    (f.stemComplete = false → (flowerStep sin f e).stemComplete = true →
      ∃ now, e = .frame now ∧ (flowerStep sin f e).bloomStartTime = some now ∧
        (flowerStep sin f e).bloomStartAssignments = 1) := by
  cases e with
  | redraw now =>
    simp only [flowerStep]
    obtain ⟨a, -, c, d, -⟩ := flowerStep_redraw sin now f
    rw [a, c, d]
    refine ⟨h0, h1, fun h => ⟨h, rfl⟩, fun h h' => ?_⟩
    rw [h] at h'
    exact absurd h' (by decide)
  | frame now =>
    simp only [flowerStep]
    cases hs : f.stemComplete with
    | true =>
      obtain ⟨a, b, c, -, -⟩ := animateFlower_grown sin now f hs
      rw [a, b, c]
      refine ⟨fun h => absurd h (by decide), fun _ => h1 hs, fun _ => ⟨rfl, rfl⟩,
        fun h => absurd h (by decide)⟩
    | false =>
      obtain ⟨h00, h01⟩ := h0 hs
      obtain ⟨hcase, -, -, -⟩ := animateFlower_growing sin now f hs
      rcases hcase with ⟨a, b, c⟩ | ⟨a, b, c⟩
      · rw [a, b, c, h01]
        refine ⟨fun h => absurd h (by decide), fun _ => ⟨by simp, rfl⟩,
          fun h => absurd h (by decide), fun _ _ => ⟨now, rfl, rfl, rfl⟩⟩
      · rw [a, b, c]
        refine ⟨fun _ => ⟨h00, h01⟩, fun h => absurd h (by decide),
          fun h => absurd h (by decide), fun _ h => absurd h (by decide)⟩

theorem flowerRun_snoc (sin : ℚ → ℚ) (f : Flower) (evs : List FlowerEvent) (e : FlowerEvent) :
    flowerRun sin f (evs ++ [e]) = flowerStep sin (flowerRun sin f evs) e := by
  simp [flowerRun, List.foldl_append]

theorem flowerRun_take_succ (sin : ℚ → ℚ) (f : Flower) (evs : List FlowerEvent) (n : Nat)
    (e : FlowerEvent) (he : evs[n]? = some e) :
    flowerRun sin f (evs.take (n + 1)) = flowerStep sin (flowerRun sin f (evs.take n)) e := by
  rw [List.take_succ, he]
  exact flowerRun_snoc sin f _ e

theorem flowerRun_take_none (sin : ℚ → ℚ) (f : Flower) (evs : List FlowerEvent) (n : Nat)
    (he : evs[n]? = none) :
    flowerRun sin f (evs.take (n + 1)) = flowerRun sin f (evs.take n) := by
  rw [List.take_succ, he]
  simp

theorem flowerRun_bloomStart (sin : ℚ → ℚ) (f : Flower) (evs : List FlowerEvent)
    (h0 : f.stemComplete = false) (h1 : f.bloomStartTime = none)
    (h2 : f.bloomStartAssignments = 0) :
    ((flowerRun sin f evs).stemComplete = false →
      (flowerRun sin f evs).bloomStartTime = none ∧
      (flowerRun sin f evs).bloomStartAssignments = 0) ∧
    ((flowerRun sin f evs).stemComplete = true →
      (flowerRun sin f evs).bloomStartTime ≠ none ∧
      (flowerRun sin f evs).bloomStartAssignments = 1) := by
  induction evs using List.reverseRecOn with
  | nil =>
    refine ⟨fun _ => ⟨h1, h2⟩, fun h => ?_⟩
    simp only [flowerRun, List.foldl_nil] at h
    rw [h0] at h
    exact absurd h (by decide)
  | append_singleton l e ih =>
    rw [flowerRun_snoc]
    obtain ⟨a, b, -, -⟩ := flowerStep_bloomStart sin (flowerRun sin f l) e ih.1 ih.2
    exact ⟨a, b⟩

/-- C3: for every flower built by createFlower and every sequence of animation
frames and resize redraws (whatever the clock readings), after any number `n`
of the events: while stemComplete is false, bloomStartTime is null and has never
been assigned; if the next event turns stemComplete from false to true, that
event is a frame and bloomStartTime has just been assigned that frame's clock
reading, for the first time; and once stemComplete is true, bloomStartTime keeps
its value, with exactly one assignment, after every later event. -/
theorem bloomStartTime_set_once (sin : ℚ → ℚ) (innerHeight x y created : ℚ)
    (palette : Palette) (seed : FlowerSeed) (evs : List FlowerEvent) (n : Nat) :
    ((flowerRun sin (newFlower innerHeight x y created palette seed)
        (evs.take n)).stemComplete = false →
      (flowerRun sin (newFlower innerHeight x y created palette seed)
        (evs.take n)).bloomStartTime = none ∧
      (flowerRun sin (newFlower innerHeight x y created palette seed)
        (evs.take n)).bloomStartAssignments = 0) ∧
    ((flowerRun sin (newFlower innerHeight x y created palette seed)
        (evs.take n)).stemComplete = false →
      (flowerRun sin (newFlower innerHeight x y created palette seed)
        (evs.take (n + 1))).stemComplete = true →
      ∃ now, evs[n]? = some (.frame now) ∧
        (flowerRun sin (newFlower innerHeight x y created palette seed)
          (evs.take (n + 1))).bloomStartTime = some now ∧
        (flowerRun sin (newFlower innerHeight x y created palette seed)
          (evs.take (n + 1))).bloomStartAssignments = 1) ∧
    ((flowerRun sin (newFlower innerHeight x y created palette seed)
        (evs.take n)).stemComplete = true →
      ∀ m, n ≤ m →
        (flowerRun sin (newFlower innerHeight x y created palette seed)
          (evs.take m)).stemComplete = true ∧
        (flowerRun sin (newFlower innerHeight x y created palette seed)
          (evs.take m)).bloomStartTime =
        (flowerRun sin (newFlower innerHeight x y created palette seed)
          (evs.take n)).bloomStartTime ∧
        (flowerRun sin (newFlower innerHeight x y created palette seed)
          (evs.take m)).bloomStartTime ≠ none ∧
        (flowerRun sin (newFlower innerHeight x y created palette seed)
          (evs.take m)).bloomStartAssignments = 1) := by
  generalize hf : newFlower innerHeight x y created palette seed = f0
  have i0 : f0.stemComplete = false := by rw [← hf]; rfl
  have i1 : f0.bloomStartTime = none := by rw [← hf]; rfl
  have i2 : f0.bloomStartAssignments = 0 := by rw [← hf]; rfl
  have inv := fun l => flowerRun_bloomStart sin f0 l i0 i1 i2
  refine ⟨(inv _).1, fun hfalse htrue => ?_, fun htrue m hm => ?_⟩
  · cases he : evs[n]? with
    | none =>
      rw [flowerRun_take_none sin f0 evs n he, hfalse] at htrue
      exact absurd htrue (by decide)
    | some e =>
      rw [flowerRun_take_succ sin f0 evs n e he] at htrue ⊢
      obtain ⟨now, rfl, b, c⟩ :=
        (flowerStep_bloomStart sin _ e (inv _).1 (inv _).2).2.2.2 hfalse htrue
      exact ⟨now, rfl, b, c⟩
  · obtain ⟨d, rfl⟩ := Nat.exists_eq_add_of_le hm
    induction d with
    | zero => exact ⟨htrue, rfl, (inv _).2 htrue⟩
    | succ d ih =>
      have ih' := ih (Nat.le_add_right n d)
      cases he : evs[n + d]? with
      | none =>
        rw [← Nat.add_assoc, flowerRun_take_none sin f0 evs (n + d) he]
        exact ih'
      | some e =>
        rw [← Nat.add_assoc, flowerRun_take_succ sin f0 evs (n + d) e he]
        obtain ⟨a, b⟩ :=
          (flowerStep_bloomStart sin _ e (inv _).1 (inv _).2).2.2.1 ih'.1
        have k := (flowerStep_bloomStart sin _ e (inv _).1 (inv _).2).2.1 a
        exact ⟨a, b.trans ih'.2.1, k.1, k.2⟩

/-- C3 at a concrete input: the sample flower (stem duration 800 ms) is still
growing after the frame at 400 ms and the redraw at 500 ms; the frame at
800 ms completes the stem and assigns bloomStartTime = 800. -/
theorem bloomStartTime_set_once_witness :
    (flowerRun flatSin (newFlower 800 100 100 0 (standardPalette 3) sampleSeed)
      (lifeEvents.take 2)).stemComplete = false ∧
    (flowerRun flatSin (newFlower 800 100 100 0 (standardPalette 3) sampleSeed)
      (lifeEvents.take (2 + 1))).stemComplete = true ∧
    ∃ now, lifeEvents[2]? = some (.frame now) ∧
      (flowerRun flatSin (newFlower 800 100 100 0 (standardPalette 3) sampleSeed)
        (lifeEvents.take (2 + 1))).bloomStartTime = some now ∧
      (flowerRun flatSin (newFlower 800 100 100 0 (standardPalette 3) sampleSeed)
        (lifeEvents.take (2 + 1))).bloomStartAssignments = 1 :=
  have h0 : (flowerRun flatSin (newFlower 800 100 100 0 (standardPalette 3) sampleSeed)
      (lifeEvents.take 2)).stemComplete = false := by
    norm_num [flowerRun, flowerStep, animateFlower, drawStem, redrawFlower, newFlower,
      sampleSeed, rand, lifeEvents, easeOutCubic]
  have h1 : (flowerRun flatSin (newFlower 800 100 100 0 (standardPalette 3) sampleSeed)
      (lifeEvents.take (2 + 1))).stemComplete = true := by
    norm_num [flowerRun, flowerStep, animateFlower, drawStem, redrawFlower, newFlower,
      sampleSeed, rand, lifeEvents, easeOutCubic]
  ⟨h0, h1, (bloomStartTime_set_once flatSin 800 100 100 0 (standardPalette 3) sampleSeed
    lifeEvents 2).2.1 h0 h1⟩

/-! ## The event loop -/

theorem animate_flowers (sin : ℚ → ℚ) (now : ℚ) (us : Nat → ℚ) (s : State) :
    (animate sin now us s).flowers = s.flowers.map fun f => (animateFlower sin now f).flower := by
  simp only [animate]
  split_ifs <;> simp

theorem animate_selector (sin : ℚ → ℚ) (now : ℚ) (us : Nat → ℚ) (s : State) :
    (animate sin now us s).selector = s.selector := by
  simp only [animate]
  split_ifs <;> rfl

theorem animate_fireflies (sin : ℚ → ℚ) (now : ℚ) (us : Nat → ℚ) (s : State) :
    (animate sin now us s).fireflies =
      updateFireflies s.innerWidth s.innerHeight us s.fireflies := by
  simp only [animate]
  split_ifs <;> rfl

/-- What a frame does to the scheduling state, by emptiness of the collection. -/
theorem animate_schedule (sin : ℚ → ℚ) (now : ℚ) (us : Nat → ℚ) (s : State) :
    (s.flowers = [] →
      (animate sin now us s).pendingFrames = s.pendingFrames - 1 ∧
      (animate sin now us s).animating = false) ∧
    (s.flowers ≠ [] →
      (animate sin now us s).pendingFrames = s.pendingFrames - 1 + 1 ∧
      (animate sin now us s).animating = s.animating) := by
  constructor
  · intro h
    simp [animate, h]
  · intro h
    have hlen : 0 < s.flowers.length := List.length_pos.mpr h
    simp [animate, hlen]

theorem startAnimation_flowers (s : State) : (startAnimation s).flowers = s.flowers := by
  unfold startAnimation
  split_ifs <;> rfl

theorem startAnimation_selector (s : State) : (startAnimation s).selector = s.selector := by
  unfold startAnimation
  split_ifs <;> rfl

theorem createFlower_flowers (x y now : ℚ) (seed : FlowerSeed) (s : State) :
    (createFlower x y now seed s).flowers =
      s.flowers ++ [newFlower s.innerHeight x y now
        (selectPalette s.selector seed.paletteDraws).1.palette seed] := by
  simp [createFlower, startAnimation_flowers]

theorem createFlower_selector (x y now : ℚ) (seed : FlowerSeed) (s : State) :
    (createFlower x y now seed s).selector =
      (selectPalette s.selector seed.paletteDraws).2 := by
  simp [createFlower, startAnimation_selector]

theorem resizeCanvas_flowers (sin : ℚ → ℚ) (w h : ℚ) (nows : Nat → ℚ) (s : State) :
    (resizeCanvas sin w h nows s).flowers =
      s.flowers.mapIdx fun i f => redrawFlower sin (nows i) f := rfl

/-- An invariant of every step holds after every run. -/
theorem run_invariant (sin : ℚ → ℚ) (P : State → Prop) (Q : Event → Prop)
    (hstep : ∀ s e s', Q e → P s → step sin s e = some s' → P s')
    (evs : List Event) (hQ : ∀ e, e ∈ evs → Q e) (s s' : State) (hP : P s)
    (hrun : run sin s evs = some s') : P s' := by
  induction evs generalizing s with
  | nil =>
    simp only [run, Option.some.injEq] at hrun
    exact hrun ▸ hP
  | cons e rest ih =>
    simp only [run] at hrun
    cases hst : step sin s e with
    | none => simp [hst] at hrun
    | some m =>
      rw [hst] at hrun
      exact ih (fun e' he' => hQ e' (List.mem_cons_of_mem _ he')) m
        (hstep s e m (hQ e (List.mem_cons_self _ _)) hP hst) hrun

theorem initState_loop (sin : ℚ → ℚ) (w h : ℚ) (seeds : Nat → FireflySeed) :
    LoopInv (initState sin w h seeds) := by
  simp [LoopInv, initState, resizeCanvas, redrawAll]

theorem createFlower_loop (x y now : ℚ) (seed : FlowerSeed) (s : State) (hs : LoopInv s) :
    (createFlower x y now seed s).pendingFrames = 1 ∧
      (createFlower x y now seed s).animating = true ∧
      (createFlower x y now seed s).flowers ≠ [] := by
  obtain ⟨h1, h2, -⟩ := hs
  refine ⟨?_, ?_, by simp [createFlower_flowers]⟩
  · cases ha : s.animating with
    | true => simpa [createFlower, startAnimation, ha] using h2.mp ha
    | false =>
      have : s.pendingFrames ≠ 1 := fun h => by simp [h2.mpr h] at ha
      simp [createFlower, startAnimation, ha]
      omega
  · cases ha : s.animating <;> simp [createFlower, startAnimation, ha]

theorem step_loop (sin : ℚ → ℚ) (s : State) (e : Event) (s' : State) (hs : LoopInv s)
    (hstep : step sin s e = some s') : LoopInv s' := by
  cases e with
  | frame now us =>
    simp only [step] at hstep
    split_ifs at hstep with hp
    simp only [Option.some.injEq] at hstep
    subst hstep
    obtain ⟨h1, h2, h3⟩ := hs
    have hp1 : s.pendingFrames = 1 := by omega
    obtain ⟨he, hne⟩ := animate_schedule sin now us s
    by_cases hf : s.flowers = []
    · obtain ⟨a, b⟩ := he hf
      refine ⟨by omega, ?_, ?_⟩
      · rw [a, b]
        simp [hp1]
      · intro h
        rw [animate_flowers, hf] at h
        exact absurd rfl h
    · obtain ⟨a, b⟩ := hne hf
      refine ⟨by omega, ?_, fun _ => by omega⟩
      rw [a, b, hp1]
      simpa [hp1] using h2
  | pointerdown x y now seed =>
    simp only [step, Option.some.injEq] at hstep
    subst hstep
    obtain ⟨a, b, -⟩ := createFlower_loop x y now seed s hs
    exact ⟨by omega, by simp [a, b], fun _ => a⟩
  | clear =>
    simp only [step, Option.some.injEq] at hstep
    subst hstep
    obtain ⟨h1, h2, -⟩ := hs
    exact ⟨h1, h2, fun h => absurd rfl h⟩
  | resize w h nows =>
    simp only [step, Option.some.injEq] at hstep
    subst hstep
    obtain ⟨h1, h2, h3⟩ := hs
    refine ⟨h1, h2, fun hne => h3 ?_⟩
    intro hnil
    apply hne
    rw [resizeCanvas_flowers, hnil]
    rfl

/-- C10: across every interleaving of frame callbacks, pointer-down, clear and
resize events from initialisation (a frame callback runs only if one is
pending), at most one frame callback is pending, `animating` is true exactly
when one is pending, and a frame is pending whenever the flower collection is
non-empty; and createFlower, called in any such state, leaves exactly one
frame pending with `animating` true. -/
theorem single_frame_loop (sin : ℚ → ℚ) (w h : ℚ) (seeds : Nat → FireflySeed)
    (evs : List Event) (s : State)
    (hrun : run sin (initState sin w h seeds) evs = some s) :
    s.pendingFrames ≤ 1 ∧ (s.animating = true ↔ s.pendingFrames = 1) ∧
    (s.flowers ≠ [] → s.pendingFrames = 1) ∧
    ∀ (x y now : ℚ) (seed : FlowerSeed),
      (createFlower x y now seed s).pendingFrames = 1 ∧
      (createFlower x y now seed s).animating = true ∧
      (createFlower x y now seed s).flowers ≠ [] := by
  have inv : LoopInv s :=
    run_invariant sin LoopInv (fun _ => True)
      (fun a e b _ ha hst => step_loop sin a e b ha hst) evs (fun _ _ => trivial) _ s
      (initState_loop sin w h seeds) hrun
  exact ⟨inv.1, inv.2.1, inv.2.2, fun x y now seed => createFlower_loop x y now seed s inv⟩

/-! ## Lifecycle flags across events -/

theorem animateFlower_flags (sin : ℚ → ℚ) (now : ℚ) (f : Flower)
    (hinv : f.bloomComplete = true → f.stemComplete = true) :
    ((animateFlower sin now f).flower.bloomComplete = true →
      (animateFlower sin now f).flower.stemComplete = true) ∧
    (f.stemComplete = true → (animateFlower sin now f).flower.stemComplete = true) ∧
    (f.bloomComplete = true → (animateFlower sin now f).flower.bloomComplete = true) ∧
    phase f ≤ phase (animateFlower sin now f).flower ∧
    phase (animateFlower sin now f).flower ≤ phase f + 1 ∧
    (animateFlower sin now f).flower.palette = f.palette := by
  cases hs : f.stemComplete with
  | false =>
    have hb : f.bloomComplete = false := by
      cases h : f.bloomComplete with
      | false => rfl
      | true => rw [hinv h] at hs; exact absurd hs (by decide)
    obtain ⟨hcase, b, c, -⟩ := animateFlower_growing sin now f hs
    rw [hb] at b
    rcases hcase with ⟨a, -, -⟩ | ⟨a, -, -⟩ <;> simp [phase, a, b, c, hs, hb]
  | true =>
    obtain ⟨a, -, -, d, e⟩ := animateFlower_grown sin now f hs
    cases hb : f.bloomComplete with
    | true => simp [phase, a, d hb, e, hs, hb]
    | false =>
      cases hb' : (animateFlower sin now f).flower.bloomComplete <;>
        simp [phase, a, e, hs, hb, hb']

/-- What a step other than a clear does to the flower at position `i`. -/
theorem step_flower (sin : ℚ → ℚ) (s : State) (e : Event) (s' : State)
    (hclear : e.isClear = false) (hstep : step sin s e = some s') (i : Nat) (f : Flower)
    (hf : s.flowers[i]? = some f) :
    ∃ f', s'.flowers[i]? = some f' ∧
      ((e.isFrame = true ∧ ∃ now, f' = (animateFlower sin now f).flower) ∨
       (e.isFrame = false ∧ (f' = f ∨ ∃ now, f' = redrawFlower sin now f))) := by
  cases e with
  | frame now us =>
    simp only [step] at hstep
    split_ifs at hstep with hp
    simp only [Option.some.injEq] at hstep
    subst hstep
    exact ⟨_, by rw [animate_flowers, List.getElem?_map, hf]; rfl, Or.inl ⟨rfl, now, rfl⟩⟩
  | pointerdown x y now seed =>
    simp only [step, Option.some.injEq] at hstep
    subst hstep
    have hi : i < s.flowers.length := (List.getElem?_eq_some_iff.mp hf).1
    exact ⟨f, by rw [createFlower_flowers, List.getElem?_append_left hi, hf],
      Or.inr ⟨rfl, Or.inl rfl⟩⟩
  | clear => simp [Event.isClear] at hclear
  | resize w h nows =>
    simp only [step, Option.some.injEq] at hstep
    subst hstep
    exact ⟨_, by rw [resizeCanvas_flowers, List.getElem?_mapIdx, hf]; rfl,
      Or.inr ⟨rfl, Or.inr ⟨nows i, rfl⟩⟩⟩

/-- A step other than a clear either keeps the selector and the size of the
collection, or is a createFlower that appends one new flower. -/
theorem step_shape (sin : ℚ → ℚ) (s : State) (e : Event) (s' : State)
    (hclear : e.isClear = false) (hstep : step sin s e = some s') :
    (s'.selector = s.selector ∧ s'.flowers.length = s.flowers.length) ∨
    (e.isFrame = false ∧ ∃ (x y now : ℚ) (seed : FlowerSeed),
      s'.flowers = s.flowers ++ [newFlower s.innerHeight x y now
        (selectPalette s.selector seed.paletteDraws).1.palette seed] ∧
      s'.selector = (selectPalette s.selector seed.paletteDraws).2) := by
  cases e with
  | frame now us =>
    simp only [step] at hstep
    split_ifs at hstep with hp
    simp only [Option.some.injEq] at hstep
    subst hstep
    exact Or.inl ⟨animate_selector sin now us s, by simp [animate_flowers]⟩
  | pointerdown x y now seed =>
    simp only [step, Option.some.injEq] at hstep
    subst hstep
    exact Or.inr ⟨rfl, x, y, now, seed, createFlower_flowers x y now seed s,
      createFlower_selector x y now seed s⟩
  | clear => simp [Event.isClear] at hclear
  | resize w h nows =>
    simp only [step, Option.some.injEq] at hstep
    subst hstep
    exact Or.inl ⟨rfl, by simp [resizeCanvas_flowers]⟩

/-- The flags and palette of the flower at position `i` across one step. -/
theorem step_flower_flags (sin : ℚ → ℚ) (s : State) (e : Event) (s' : State)
    (hclear : e.isClear = false) (hstep : step sin s e = some s') (i : Nat) (f : Flower)
    (hf : s.flowers[i]? = some f)
    (hinv : f.bloomComplete = true → f.stemComplete = true) :
    ∃ f', s'.flowers[i]? = some f' ∧
      (f'.bloomComplete = true → f'.stemComplete = true) ∧
      (f.stemComplete = true → f'.stemComplete = true) ∧
      (f.bloomComplete = true → f'.bloomComplete = true) ∧
      phase f ≤ phase f' ∧
      phase f' ≤ phase f + (if e.isFrame = true then 1 else 0) ∧
      f'.palette = f.palette := by
  obtain ⟨f', hf', hrel⟩ := step_flower sin s e s' hclear hstep i f hf
  refine ⟨f', hf', ?_⟩
  rcases hrel with ⟨hfr, now, rfl⟩ | ⟨hfr, rfl | ⟨now, rfl⟩⟩
  · simpa [hfr] using animateFlower_flags sin now f hinv
  · exact ⟨hinv, id, id, le_rfl, by simp [hfr], rfl⟩
  · exact ⟨hinv, id, id, le_rfl, by simp [hfr, phase, redrawFlower], rfl⟩

/-- Where the flower at position `i` after a step comes from. -/
theorem step_flower_origin (sin : ℚ → ℚ) (s : State) (e : Event) (s' : State)
    (hclear : e.isClear = false) (hstep : step sin s e = some s') (i : Nat) (f' : Flower)
    (hf' : s'.flowers[i]? = some f') :
    (∃ f, s.flowers[i]? = some f) ∨
    (i = s.flowers.length ∧ ∃ (x y now : ℚ) (seed : FlowerSeed),
      f' = newFlower s.innerHeight x y now
        (selectPalette s.selector seed.paletteDraws).1.palette seed ∧
      s'.selector = (selectPalette s.selector seed.paletteDraws).2) := by
  by_cases hi : i < s.flowers.length
  · exact Or.inl ⟨s.flowers[i], List.getElem?_eq_getElem hi⟩
  · have hi' : i < s'.flowers.length := (List.getElem?_eq_some_iff.mp hf').1
    rcases step_shape sin s e s' hclear hstep with ⟨-, hlen⟩ | ⟨-, x, y, now, seed, hfl, hsel⟩
    · omega
    · right
      rw [hfl] at hf' hi'
      simp only [List.length_append, List.length_singleton] at hi'
      have hieq : i = s.flowers.length := by omega
      subst hieq
      simp only [List.getElem?_concat_length, Option.some.injEq] at hf'
      exact ⟨rfl, x, y, now, seed, hf'.symm, hsel⟩

theorem step_flagsOrdered (sin : ℚ → ℚ) (s : State) (e : Event) (s' : State)
    (hs : FlagsOrdered s) (hstep : step sin s e = some s') : FlagsOrdered s' := by
  cases hc : e.isClear with
  | true =>
    cases e with
    | clear =>
      simp only [step, Option.some.injEq] at hstep
      subst hstep
      intro i f hf
      simp [clearHandler] at hf
    | frame now us => simp [Event.isClear] at hc
    | pointerdown x y now seed => simp [Event.isClear] at hc
    | resize w h nows => simp [Event.isClear] at hc
  | false =>
    intro i f' hf' hb'
    rcases step_flower_origin sin s e s' hc hstep i f' hf' with ⟨f, hf⟩ | ⟨-, x, y, now, seed, rfl, -⟩
    · obtain ⟨f'', hf'', hord, -⟩ := step_flower_flags sin s e s' hc hstep i f hf (hs i f hf)
      have : f'' = f' := Option.some.inj (hf''.symm.trans hf')
      exact this ▸ hord (this ▸ hb')
    · simp [newFlower] at hb'

theorem initState_flagsOrdered (sin : ℚ → ℚ) (w h : ℚ) (seeds : Nat → FireflySeed) :
    FlagsOrdered (initState sin w h seeds) := by
  intro i f hf
  simp [initState, resizeCanvas, redrawAll] at hf

theorem frameCount_cons (e : Event) (rest : List Event) :
    frameCount (e :: rest) = (if e.isFrame = true then 1 else 0) + frameCount rest := by
  unfold frameCount
  by_cases h : e.isFrame = true
  · simp [List.filter_cons, h]
    omega
  · simp [List.filter_cons, h]

/-- The flags of the flower at position `i` across a run without clear. -/
theorem run_flower_flags (sin : ℚ → ℚ) (rest : List Event) (s s2 : State)
    (hs : FlagsOrdered s) (hrest : ∀ e, e ∈ rest → e.isClear = false)
    (hrun : run sin s rest = some s2) (i : Nat) (f : Flower) (hf : s.flowers[i]? = some f) :
    ∃ f2, s2.flowers[i]? = some f2 ∧
      (f2.bloomComplete = true → f2.stemComplete = true) ∧
      (f.stemComplete = true → f2.stemComplete = true) ∧
      (f.bloomComplete = true → f2.bloomComplete = true) ∧
      phase f ≤ phase f2 ∧ phase f2 ≤ phase f + frameCount rest := by
  induction rest generalizing s f with
  | nil =>
    simp only [run, Option.some.injEq] at hrun
    subst hrun
    exact ⟨f, hf, hs i f hf, id, id, le_rfl, by simp [frameCount]⟩
  | cons e rest ih =>
    simp only [run] at hrun
    cases hst : step sin s e with
    | none => simp [hst] at hrun
    | some m =>
      rw [hst] at hrun
      have hc := hrest e (List.mem_cons_self _ _)
      obtain ⟨f', hf', -, a, b, c, d, -⟩ :=
        step_flower_flags sin s e m hc hst i f hf (hs i f hf)
      obtain ⟨f2, hf2, o2, a2, b2, c2, d2⟩ :=
        ih m (step_flagsOrdered sin s e m hs hst)
          (fun e' he' => hrest e' (List.mem_cons_of_mem _ he')) hrun f' hf'
      refine ⟨f2, hf2, o2, fun h => a2 (a h), fun h => b2 (b h), le_trans c c2, ?_⟩
      rw [frameCount_cons]
      omega

/-- C4: in any state reached from initialisation, and over any further sequence
of frames, resize redraws and flower creations, each flower's flags only move
forward along (false,false) -> (true,false) -> (true,true): bloomComplete is
never true while stemComplete is false, a flag that is true stays true, and
the number of flags set grows by at most one per frame callback. -/
theorem lifecycle_forward (sin : ℚ → ℚ) (w h : ℚ) (seeds : Nat → FireflySeed)
    (evs rest : List Event) (s s2 : State)
    (hs : run sin (initState sin w h seeds) evs = some s)
    (hrest : ∀ e, e ∈ rest → e.isClear = false)
    (hrun : run sin s rest = some s2) (i : Nat) (f : Flower) (hf : s.flowers[i]? = some f) :
    (f.bloomComplete = true → f.stemComplete = true) ∧
    ∃ f2, s2.flowers[i]? = some f2 ∧
      (f2.bloomComplete = true → f2.stemComplete = true) ∧
      (f.stemComplete = true → f2.stemComplete = true) ∧
      (f.bloomComplete = true → f2.bloomComplete = true) ∧
      phase f ≤ phase f2 ∧ phase f2 ≤ phase f + frameCount rest := by
  have inv : FlagsOrdered s :=
    run_invariant sin FlagsOrdered (fun _ => True)
      (fun a e b _ ha hst => step_flagsOrdered sin a e b ha hst) evs (fun _ _ => trivial) _ s
      (initState_flagsOrdered sin w h seeds) hs
  exact ⟨inv i f hf, run_flower_flags sin rest s s2 inv hrest hrun i f hf⟩

/-- C4 at a concrete input: one flower is created, then a frame runs at 800 ms. -/
theorem lifecycle_forward_witness :
    ∃ f2, (animate flatSin 800 quarterSamples
        (createFlower 100 100 0 sampleSeed
          (initState flatSin 800 600 fun _ => sampleFireflySeed))).flowers[0]? = some f2 ∧
      (f2.bloomComplete = true → f2.stemComplete = true) ∧
      phase (newFlower 600 100 100 0 (standardPalette 3) sampleSeed) ≤ phase f2 ∧
      phase f2 ≤ phase (newFlower 600 100 100 0 (standardPalette 3) sampleSeed) +
        frameCount [.frame 800 quarterSamples] :=
  have h := (lifecycle_forward flatSin 800 600 (fun _ => sampleFireflySeed)
    [.pointerdown 100 100 0 sampleSeed] [.frame 800 quarterSamples]
    (createFlower 100 100 0 sampleSeed (initState flatSin 800 600 fun _ => sampleFireflySeed))
    (animate flatSin 800 quarterSamples
      (createFlower 100 100 0 sampleSeed
        (initState flatSin 800 600 fun _ => sampleFireflySeed)))
    rfl (fun e he => by
      rw [List.mem_singleton] at he
      rw [he]
      rfl) rfl 0
    (newFlower 600 100 100 0 (standardPalette 3) sampleSeed) rfl).2
  h.elim fun f2 hf2 => ⟨f2, hf2.1, hf2.2.1, hf2.2.2.2.2.1, hf2.2.2.2.2.2⟩

/-- C10 at a concrete input: a frame, a press, a clear and a resize after start-up. -/
theorem single_frame_loop_witness :
    (clearHandler (createFlower 100 100 20 sampleSeed
      (animate flatSin 16 quarterSamples
        (initState flatSin 800 600 fun _ => sampleFireflySeed)))).pendingFrames ≤ 1 ∧
    ((clearHandler (createFlower 100 100 20 sampleSeed
      (animate flatSin 16 quarterSamples
        (initState flatSin 800 600 fun _ => sampleFireflySeed)))).animating = true ↔
     (clearHandler (createFlower 100 100 20 sampleSeed
      (animate flatSin 16 quarterSamples
        (initState flatSin 800 600 fun _ => sampleFireflySeed)))).pendingFrames = 1) :=
  have h := single_frame_loop flatSin 800 600 (fun _ => sampleFireflySeed)
    [.frame 16 quarterSamples, .pointerdown 100 100 20 sampleSeed, .clear]
    (clearHandler (createFlower 100 100 20 sampleSeed
      (animate flatSin 16 quarterSamples
        (initState flatSin 800 600 fun _ => sampleFireflySeed)))) rfl
  ⟨h.1, h.2.1⟩

/-! ## Clearing -/

theorem animateFlower_palette (sin : ℚ → ℚ) (now : ℚ) (f : Flower) :
    (animateFlower sin now f).flower.palette = f.palette := by
  cases hs : f.stemComplete with
  | false => exact (animateFlower_growing sin now f hs).2.2.1
  | true => exact (animateFlower_grown sin now f hs).2.2.2.2

theorem step_flower_palette (sin : ℚ → ℚ) (s : State) (e : Event) (s' : State)
    (hclear : e.isClear = false) (hstep : step sin s e = some s') (i : Nat) (f : Flower)
    (hf : s.flowers[i]? = some f) :
    ∃ f', s'.flowers[i]? = some f' ∧ f'.palette = f.palette := by
  obtain ⟨f', hf', hrel⟩ := step_flower sin s e s' hclear hstep i f hf
  refine ⟨f', hf', ?_⟩
  rcases hrel with ⟨-, now, rfl⟩ | ⟨-, rfl | ⟨now, rfl⟩⟩
  · exact animateFlower_palette sin now f
  · rfl
  · rfl

theorem selectPalette_cadence (s : Selector) (rnd : Nat → Fin 10) :
    ((s.flowerCounter + 1) % 7 = 0 → (selectPalette s rnd).1.palette = redRosePalette) ∧
    ((s.flowerCounter + 1) % 7 ≠ 0 →
      ∃ c : Fin 10, (selectPalette s rnd).1.palette = standardPalette c) := by
  constructor
  · intro h
    rw [selectPalette_red s rnd h]
  · intro h
    rw [selectPalette_std s rnd h]
    exact ⟨_, rfl⟩

theorem step_cadence (sin : ℚ → ℚ) (s : State) (e : Event) (s' : State)
    (hclear : e.isClear = false) (hs : PaletteCadence s)
    (hstep : step sin s e = some s') : PaletteCadence s' := by
  obtain ⟨hcnt, hpal⟩ := hs
  constructor
  · rcases step_shape sin s e s' hclear hstep with ⟨a, b⟩ | ⟨-, x, y, now, seed, a, b⟩
    · rw [a, b, hcnt]
    · rw [a, b, selectPalette_counter, hcnt]
      simp
  · intro i f' hf'
    rcases step_flower_origin sin s e s' hclear hstep i f' hf' with
      ⟨f, hf⟩ | ⟨hi, x, y, now, seed, rfl, -⟩
    · obtain ⟨f'', hf'', hp⟩ := step_flower_palette sin s e s' hclear hstep i f hf
      have : f'' = f' := Option.some.inj (hf''.symm.trans hf')
      rw [← this, hp]
      exact hpal i f hf
    · have := selectPalette_cadence s.selector seed.paletteDraws
      rw [hcnt, ← hi] at this
      exact this

theorem clearHandler_cadence (s : State) : PaletteCadence (clearHandler s) := by
  refine ⟨rfl, fun i f hf => ?_⟩
  simp [clearHandler] at hf

/-- C8: after a clear trigger, whatever state preceded it, the flower
collection is empty, the palette counter is 0 and the history is empty; and
over any later sequence of presses, frames and resizes, the `k`-th flower
created since the clear carries the red-rose palette if and only if
`k % 7 = 0`. -/
theorem clear_restarts_cadence (sin : ℚ → ℚ) (s : State) (rest : List Event) (s2 : State)
    (hrest : ∀ e, e ∈ rest → e.isClear = false)
    (hrun : run sin (clearHandler s) rest = some s2)
    (k : Nat) (h1 : 1 ≤ k) (hk : k ≤ s2.flowers.length) :
    (clearHandler s).flowers = [] ∧
    (clearHandler s).selector.flowerCounter = 0 ∧
    (clearHandler s).selector.lastColorIndices = [] ∧
    ∃ f, s2.flowers[k - 1]? = some f ∧
      (f.palette = ⟨"#ff4d4d", "#d40000", true⟩ ↔ k % 7 = 0) ∧
      (f.palette.isRedRose = true ↔ k % 7 = 0) := by
  refine ⟨rfl, rfl, rfl, ?_⟩
  have inv : PaletteCadence s2 :=
    run_invariant sin PaletteCadence (fun e => e.isClear = false)
      (fun a e b he ha hst => step_cadence sin a e b he ha hst) rest hrest _ s2
      (clearHandler_cadence s) hrun
  have hlt : k - 1 < s2.flowers.length := by omega
  refine ⟨s2.flowers[k - 1], List.getElem?_eq_getElem hlt, ?_⟩
  obtain ⟨hred, hstd⟩ := inv.2 (k - 1) _ (List.getElem?_eq_getElem hlt)
  have hk1 : k - 1 + 1 = k := by omega
  rw [hk1] at hred hstd
  by_cases h7 : k % 7 = 0
  · rw [hred h7]
    simp [h7, redRosePalette, RED_ROSE_PALETTE]
  · obtain ⟨c, hc⟩ := hstd h7
    rw [hc]
    simp [h7, standardPalette]

/-- C8 at a concrete input: seven presses after a clear, seventh flower. -/
theorem clear_restarts_cadence_witness :
    ∃ f, afterSevenPresses.flowers[7 - 1]? = some f ∧
      (f.palette = ⟨"#ff4d4d", "#d40000", true⟩ ↔ 7 % 7 = 0) ∧
      (f.palette.isRedRose = true ↔ 7 % 7 = 0) :=
  (clear_restarts_cadence flatSin (initState flatSin 800 600 fun _ => sampleFireflySeed)
    sevenPresses afterSevenPresses
    (fun e he => by
      rw [List.eq_of_mem_replicate he]
      rfl)
    rfl 7 (by decide) (by decide)).2.2.2

/-! ## The frame loop with an empty collection -/

/-- C5, the code at start-up with no flower: the frame requested by the
initialisation runs (updating the particles once), finds the collection empty,
requests no further frame and sets `animating` to false; after it no frame
callback can run, whatever the clock, until a flower is created. -/
theorem ambient_loop_stops (sin : ℚ → ℚ) (w h : ℚ) (seeds : Nat → FireflySeed)
    (now : ℚ) (us : Nat → ℚ) :
    ∃ s1, step sin (initState sin w h seeds) (.frame now us) = some s1 ∧
      s1.fireflies = updateFireflies w h us (initFireflies w h seeds) ∧
      s1.flowers = [] ∧ s1.animating = false ∧ s1.pendingFrames = 0 ∧
      ∀ (now2 : ℚ) (us2 : Nat → ℚ), step sin s1 (.frame now2 us2) = none := by
  have hfl : (initState sin w h seeds).flowers = [] := by
    simp [initState, resizeCanvas, redrawAll]
  have hp : (initState sin w h seeds).pendingFrames = 1 := by
    simp [initState, resizeCanvas, redrawAll]
  obtain ⟨a, b⟩ := (animate_schedule sin now us (initState sin w h seeds)).1 hfl
  have hp0 : (animate sin now us (initState sin w h seeds)).pendingFrames = 0 := by
    rw [a, hp]
  refine ⟨animate sin now us (initState sin w h seeds), by simp [step, hp], ?_, ?_, b, hp0,
    fun now2 us2 => by simp [step, hp0]⟩
  · rw [animate_fireflies]
    simp [initState, resizeCanvas, redrawAll]
  · rw [animate_flowers, hfl]
    rfl

/-! ## The head of a flower pressed on the top pixel row -/

theorem flowerStep_targetY (sin : ℚ → ℚ) (f : Flower) (e : FlowerEvent) :
    (flowerStep sin f e).targetY = f.targetY := by
  cases e with
  | redraw now => rfl
  | frame now =>
    simp only [flowerStep, animateFlower]
    split_ifs <;> rfl

theorem flowerRun_targetY (sin : ℚ → ℚ) (f : Flower) (evs : List FlowerEvent) :
    (flowerRun sin f evs).targetY = f.targetY := by
  induction evs using List.reverseRecOn with
  | nil => rfl
  | append_singleton l e ih => rw [flowerRun_snoc, flowerStep_targetY, ih]

theorem drawFlowerHead_targetY_zero (sin : ℚ → ℚ) (f : Flower) (now q : ℚ)
    (h : f.targetY = 0) : drawFlowerHead (drawStem sin f 1 now) q = none := by
  simp [drawFlowerHead, drawStem, falsy, easeOutCubic, h]

theorem animateFlower_targetY_zero (sin : ℚ → ℚ) (f : Flower) (now : ℚ)
    (h : f.targetY = 0) : (animateFlower sin now f).head = none := by
  simp only [animateFlower]
  split_ifs <;> first | rfl | exact drawFlowerHead_targetY_zero sin f now _ h

/-- C6, the code on a flower pressed at y = 0: the frame at 800 ms completes its
stem and writes currentX = 50 and currentY = 0, so the flower is Blooming with
a computed head position; yet in no frame of any later history does
drawFlowerHead paint its head, because the guard reads the zero as missing. -/
theorem head_skipped_at_top_edge (sin : ℚ → ℚ) :
    (flowerRun sin topEdgeFlower [.frame 800]).stemComplete = true ∧
    (flowerRun sin topEdgeFlower [.frame 800]).bloomComplete = false ∧
    (flowerRun sin topEdgeFlower [.frame 800]).currentX = some 50 ∧
    (flowerRun sin topEdgeFlower [.frame 800]).currentY = some 0 ∧
    ∀ (evs : List FlowerEvent) (now : ℚ),
      (animateFlower sin now (flowerRun sin topEdgeFlower evs)).head = none := by
  refine ⟨?_, ?_, ?_, ?_, fun evs now => ?_⟩
  · norm_num [flowerRun, flowerStep, animateFlower, drawStem, topEdgeFlower, newFlower,
      sampleSeed, rand, easeOutCubic]
  · norm_num [flowerRun, flowerStep, animateFlower, drawStem, topEdgeFlower, newFlower,
      sampleSeed, rand, easeOutCubic]
  · norm_num [flowerRun, flowerStep, animateFlower, drawStem, topEdgeFlower, newFlower,
      sampleSeed, rand, easeOutCubic]
  · norm_num [flowerRun, flowerStep, animateFlower, drawStem, topEdgeFlower, newFlower,
      sampleSeed, rand, easeOutCubic]
  · exact animateFlower_targetY_zero sin _ now
      ((flowerRun_targetY sin topEdgeFlower evs).trans rfl)

end Flowers
